import Mathlib

/-!
Shallow embedding of the hive-orchestrator core in Lean 4, together with
theorems checking the natural-language specification against the code.

The embedding covers:
* `src/coordinator.py` — the lease coordination service (`ReservationStore`,
  `claim_project`, `release_project`, `release_by_claim_id`, `get_status`,
  `extend_claim`, `verify_api_key`);
* `src/cortex.py` — the dependency-graph engine (`build_dependency_graph`,
  `detect_cycles`, `has_unresolved_blockers`, `ready_work`);
* `src/agent_dispatcher.py` — work selection and the dispatch cycle
  (`select_work`, `run_cycle`);
* `src/yolo_loop.py` — the execution loop state machine (`YoloLoop.run`)
  and project release (`LoomWeaver.release_project`).

Python dictionaries are modelled as association lists (`List (String × β)`)
with replace-on-insert semantics; wall-clock time is passed explicitly as an
argument; external effects (uuid generation, the injected executor, the
filesystem-backed project store) are parameters of the modelled functions.
The file is organised as definitions first, then the theorems.
-/

set_option maxHeartbeats 1000000

/-! ### Association-list maps (model of Python `dict`) -/

/-- Look up a key in an association list (first match). -/
def mapLookup {β : Type} (k : String) : List (String × β) → Option β
  | [] => none
  | (k', v) :: rest => if k' = k then some v else mapLookup k rest

/-- Remove every binding for a key. -/
def mapErase {β : Type} (k : String) (m : List (String × β)) : List (String × β) :=
  m.filter (fun kv => kv.1 ≠ k)

/-- Insert or replace the binding for a key (Python `d[k] = v`). -/
def mapInsert {β : Type} (k : String) (v : β) (m : List (String × β)) : List (String × β) :=
  (k, v) :: mapErase k m

/-- Keys of an association list. -/
def mapKeys {β : Type} (m : List (String × β)) : List String :=
  m.map Prod.fst

/-! ### LeaseCoordinator (src/coordinator.py)

Wall-clock time (`datetime.now`) is passed explicitly as an `Int` number of
seconds; uuid generation is passed as the `fresh_claim_id` argument. -/

def DEFAULT_TTL_SECONDS : Int := 3600

def MAX_TTL_SECONDS : Int := 86400

/-- Represents a project claim/reservation (the `Claim` dataclass). -/
structure Claim where
  claim_id : String
  project_id : String
  agent_name : String
  created_at : Int
  expires_at : Int
deriving DecidableEq, Repr

/-- Check if the claim has expired (`Claim.is_expired`). -/
def Claim.is_expired (now : Int) (c : Claim) : Bool :=
  decide (now > c.expires_at)

/-- In-memory store for project reservations (the `ReservationStore` dataclass):
`claims` maps `project_id → Claim`, `claims_by_id` maps `claim_id → project_id`. -/
structure ReservationStore where
  claims : List (String × Claim)
  claims_by_id : List (String × String)
deriving DecidableEq, Repr

def ReservationStore.empty : ReservationStore :=
  { claims := [], claims_by_id := [] }

/-- Internal method to remove a claim (`ReservationStore._remove_claim`). -/
def ReservationStore.remove_claim_internal (store : ReservationStore)
    (project_id : String) : Option Claim × ReservationStore :=
  match mapLookup project_id store.claims with
  | none => (none, store)
  | some c =>
      (some c,
       { claims := mapErase project_id store.claims,
         claims_by_id := mapErase c.claim_id store.claims_by_id })

/-- Get active claim for a project, removing it if expired
(`ReservationStore.get_claim`). -/
def ReservationStore.get_claim (now : Int) (store : ReservationStore)
    (project_id : String) : Option Claim × ReservationStore :=
  match mapLookup project_id store.claims with
  | none => (none, store)
  | some c =>
      if Claim.is_expired now c then
        (none, (store.remove_claim_internal project_id).2)
      else
        (some c, store)

/-- Add a new claim (`ReservationStore.add_claim`). -/
def ReservationStore.add_claim (store : ReservationStore) (c : Claim) :
    ReservationStore :=
  { claims := mapInsert c.project_id c store.claims,
    claims_by_id := mapInsert c.claim_id c.project_id store.claims_by_id }

/-- Remove and return a claim (`ReservationStore.remove_claim`). -/
def ReservationStore.remove_claim (store : ReservationStore) (project_id : String) :
    Option Claim × ReservationStore :=
  store.remove_claim_internal project_id

/-- Remove a claim by its claim_id (`ReservationStore.remove_claim_by_id`). -/
def ReservationStore.remove_claim_by_id (store : ReservationStore)
    (claim_id : String) : Option Claim × ReservationStore :=
  match mapLookup claim_id store.claims_by_id with
  | some project_id => store.remove_claim_internal project_id
  | none => (none, store)

/-- Remove all expired claims (`ReservationStore.cleanup_expired`), without the
returned count. -/
def ReservationStore.cleanup_expired (now : Int) (store : ReservationStore) :
    ReservationStore :=
  (store.claims.filter (fun kv => Claim.is_expired now kv.2)).foldl
    (fun s kv => (s.remove_claim_internal kv.1).2) store

/-- Get all non-expired claims (`ReservationStore.get_all_active_claims`). -/
def ReservationStore.get_all_active_claims (now : Int) (store : ReservationStore) :
    List (String × Claim) × ReservationStore :=
  let s := store.cleanup_expired now
  (s.claims, s)

/-- Request model for claiming a project (`ClaimRequest`). -/
structure ClaimRequest where
  project_id : String
  agent_name : String
  ttl_seconds : Int
deriving DecidableEq, Repr

/-- The pydantic field bounds `ge=60, le=MAX_TTL_SECONDS` on
`ClaimRequest.ttl_seconds`; requests outside them are rejected with a
validation error before the handler runs. -/
def ClaimRequest.valid (r : ClaimRequest) : Prop :=
  60 ≤ r.ttl_seconds ∧ r.ttl_seconds ≤ MAX_TTL_SECONDS

instance (r : ClaimRequest) : Decidable r.valid := by
  unfold ClaimRequest.valid
  infer_instance

/-- Structured coordinator responses (one constructor per response model,
plus `httpError` for raised `HTTPException`s). -/
inductive CoordResponse where
  | claimGranted (claim_id project_id agent_name : String) (expires_at : Int)
  | claimConflict (current_owner : String) (claimed_at expires_at : Int)
  | released (ok : Bool) (project_id : Option String)
  | statusInfo (project_id : String) (is_claimed : Bool) (c : Option Claim)
  | reservations (count : Nat) (claims : List Claim)
  | health (active_claims : Nat)
  | extended (project_id : String) (new_expires_at : Int)
  | httpError (code : Nat)
deriving DecidableEq, Repr

/-- The `POST /claim` handler (`claim_project`). -/
def claim_project (now : Int) (fresh_claim_id : String) (request : ClaimRequest)
    (store : ReservationStore) : CoordResponse × ReservationStore :=
  let res := store.get_claim now request.project_id
  match res.1 with
  | some existing =>
      (.claimConflict existing.agent_name existing.created_at existing.expires_at,
       res.2)
  | none =>
      let c : Claim :=
        { claim_id := fresh_claim_id,
          project_id := request.project_id,
          agent_name := request.agent_name,
          created_at := now,
          expires_at := now + request.ttl_seconds }
      (.claimGranted c.claim_id c.project_id c.agent_name c.expires_at,
       res.2.add_claim c)

/-- The `DELETE /release/{project_id}` handler (`release_project`). -/
def release_project (project_id : String) (store : ReservationStore) :
    CoordResponse × ReservationStore :=
  let res := store.remove_claim project_id
  match res.1 with
  | some _ => (.released true (some project_id), res.2)
  | none => (.released false (some project_id), res.2)

/-- The `DELETE /release/claim/{claim_id}` handler (`release_by_claim_id`). -/
def release_by_claim_id (claim_id : String) (store : ReservationStore) :
    CoordResponse × ReservationStore :=
  let res := store.remove_claim_by_id claim_id
  match res.1 with
  | some c => (.released true (some c.project_id), res.2)
  | none => (.released false none, res.2)

/-- The `GET /status/{project_id}` handler (`get_status`). -/
def get_status (now : Int) (project_id : String) (store : ReservationStore) :
    CoordResponse × ReservationStore :=
  let res := store.get_claim now project_id
  (.statusInfo project_id res.1.isSome res.1, res.2)

/-- The `GET /reservations` handler (`get_reservations`). -/
def get_reservations (now : Int) (store : ReservationStore) :
    CoordResponse × ReservationStore :=
  let res := store.get_all_active_claims now
  (.reservations res.1.length (res.1.map Prod.snd), res.2)

/-- The `GET /health` handler (`health_check`), without the uptime field. -/
def health_check (now : Int) (store : ReservationStore) :
    CoordResponse × ReservationStore :=
  let res := store.get_all_active_claims now
  (.health res.1.length, res.2)

/-- The `POST /extend/{project_id}` handler (`extend_claim`). -/
def extend_claim (now : Int) (project_id : String) (ttl_seconds : Int)
    (store : ReservationStore) : CoordResponse × ReservationStore :=
  let res := store.get_claim now project_id
  match res.1 with
  | none => (.httpError 404, res.2)
  | some claim =>
      let new_expires := now + min ttl_seconds MAX_TTL_SECONDS
      let claim2 := { claim with expires_at := new_expires }
      (.extended project_id new_expires,
       { res.2 with claims := mapInsert project_id claim2 res.2.claims })

/-- Python falsiness of an optional environment string (`not HIVE_API_KEY`):
unset or empty counts as absent. -/
def pyFalsy : Option String → Bool
  | none => true
  | some s => decide (s = "")

/-- Authentication check (`verify_api_key`): returns the HTTP error status on
failure. The `hmac.compare_digest` constant-time comparison is modelled as
string equality. -/
def verify_api_key (require_auth : Bool) (api_key : Option String)
    (credentials : Option String) : Except Nat Bool :=
  if !require_auth && pyFalsy api_key then .ok true
  else if pyFalsy api_key then .error 500
  else
    match credentials with
    | none => .error 401
    | some cred => if cred = api_key.getD "" then .ok true else .error 401

/-- The coordinator's route surface. -/
inductive Endpoint where
  | health
  | statusOf (project_id : String)
  | reservations
  | claim (request : ClaimRequest)
  | release (project_id : String)
  | releaseByClaim (claim_id : String)
  | extend (project_id : String) (ttl_seconds : Int)
deriving DecidableEq, Repr

/-- Whether a route is declared with `dependencies=[Depends(verify_api_key)]`. -/
def Endpoint.requires_auth : Endpoint → Bool
  | .claim _ => true
  | .release _ => true
  | .releaseByClaim _ => true
  | .extend _ _ => true
  | _ => false

/-- Run a handler behind the `verify_api_key` dependency. -/
def with_auth (require_auth : Bool) (api_key : Option String)
    (credentials : Option String)
    (handler : ReservationStore → CoordResponse × ReservationStore)
    (store : ReservationStore) : CoordResponse × ReservationStore :=
  match verify_api_key require_auth api_key credentials with
  | .error code => (.httpError code, store)
  | .ok _ => handler store

/-- Dispatch one request to its handler, applying authentication to the
mutating routes exactly as the FastAPI route declarations do. -/
def handle_request (require_auth : Bool) (api_key : Option String)
    (credentials : Option String) (now : Int) (fresh_claim_id : String)
    (ep : Endpoint) (store : ReservationStore) :
    CoordResponse × ReservationStore :=
  match ep with
  | .health => health_check now store
  | .statusOf project_id => get_status now project_id store
  | .reservations => get_reservations now store
  | .claim request =>
      with_auth require_auth api_key credentials
        (fun s =>
          if request.valid then claim_project now fresh_claim_id request s
          else (.httpError 422, s))
        store
  | .release project_id =>
      with_auth require_auth api_key credentials (release_project project_id) store
  | .releaseByClaim claim_id =>
      with_auth require_auth api_key credentials (release_by_claim_id claim_id) store
  | .extend project_id ttl_seconds =>
      with_auth require_auth api_key credentials
        (extend_claim now project_id ttl_seconds) store

/-- One coordinator operation of an arbitrary request sequence (used to state
reachability invariants). -/
inductive CoordOp where
  | claim (now : Int) (fresh_claim_id : String) (request : ClaimRequest)
  | release (now : Int) (project_id : String)
  | releaseByClaim (now : Int) (claim_id : String)
  | statusOf (now : Int) (project_id : String)
  | reservations (now : Int)
  | health (now : Int)
  | extend (now : Int) (project_id : String) (ttl_seconds : Int)
  | cleanup (now : Int)
deriving Repr

/-- Apply the store effect of one operation. -/
def CoordOp.apply : CoordOp → ReservationStore → ReservationStore
  | .claim now fresh request, s => (claim_project now fresh request s).2
  | .release _ project_id, s => (release_project project_id s).2
  | .releaseByClaim _ claim_id, s => (release_by_claim_id claim_id s).2
  | .statusOf now project_id, s => (get_status now project_id s).2
  | .reservations now, s => (get_reservations now s).2
  | .health now, s => (health_check now s).2
  | .extend now project_id ttl, s => (extend_claim now project_id ttl s).2
  | .cleanup now, s => s.cleanup_expired now

/-- Run a sequence of coordinator operations. -/
def run_ops (ops : List CoordOp) (s : ReservationStore) : ReservationStore :=
  ops.foldl (fun s op => op.apply s) s

/-- The live (non-expired) leases held for a resource at a given time. -/
def live_claims_for (now : Int) (s : ReservationStore) (pid : String) : List Claim :=
  (s.claims.filter (fun kv => kv.1 = pid && !Claim.is_expired now kv.2)).map Prod.snd

/-- Keys of the `claims` dict are distinct (true of any Python dict; proved
invariant for all reachable stores). -/
def StoreKeysNodup (s : ReservationStore) : Prop :=
  (mapKeys s.claims).Nodup

/-! ### Cortex dependency graph (src/cortex.py)

A discovered project: the `path`/`project_id` fields plus the metadata keys
the graph and scheduler code reads. `last_updated` holds the parsed timestamp
as seconds; `none` models a missing or unparsable value. -/

structure Project where
  path : String
  project_id : String
  status : Option String
  priority : Option String
  owner : Option String
  blocked : Bool
  blocked_by : List String
  blocks : List String
  last_updated : Option Nat
deriving DecidableEq, Repr

/-- Node payload stored in `nodes` by `build_dependency_graph`. -/
structure GraphNode where
  status : String
  priority : String
  owner : Option String
  blocked : Bool
  path : String
deriving DecidableEq, Repr

/-- The graph structure returned by `build_dependency_graph`. -/
structure DepGraph where
  nodes : List (String × GraphNode)
  edges : List (String × List String)
  reverse_edges : List (String × List String)
deriving DecidableEq, Repr

def projectNode (p : Project) : GraphNode :=
  { status := p.status.getD "unknown",
    priority := p.priority.getD "medium",
    owner := p.owner,
    blocked := p.blocked,
    path := p.path }

/-- Append one id to an adjacency list (`edges[k].append(v)`). -/
def edgeAppend (m : List (String × List String)) (k v : String) :
    List (String × List String) :=
  mapInsert k ((mapLookup k m).getD [] ++ [v]) m

/-- Append with a membership guard (`if v not in reverse_edges[k]`). -/
def edgeAppendNew (m : List (String × List String)) (k v : String) :
    List (String × List String) :=
  if v ∈ (mapLookup k m).getD [] then m else edgeAppend m k v

/-- Second pass of `build_dependency_graph` for one project: the `blocked_by`
loop followed by the `blocks` loop. -/
def addProjectEdges (nodeKeys : List String) (p : Project)
    (er : List (String × List String) × List (String × List String)) :
    List (String × List String) × List (String × List String) :=
  let er1 := p.blocked_by.foldl
    (fun er blocker_id =>
      if blocker_id ∈ nodeKeys then
        (edgeAppend er.1 blocker_id p.project_id,
         edgeAppend er.2 p.project_id blocker_id)
      else er)
    er
  p.blocks.foldl
    (fun er blocked_id =>
      if blocked_id ∈ nodeKeys then
        (edgeAppend er.1 p.project_id blocked_id,
         edgeAppendNew er.2 blocked_id p.project_id)
      else er)
    er1

/-- Build a dependency graph from all projects (`Cortex.build_dependency_graph`). -/
def build_dependency_graph (ps : List Project) : DepGraph :=
  let init := ps.foldl
    (fun (acc : List (String × GraphNode) ×
          List (String × List String) × List (String × List String)) p =>
      (mapInsert p.project_id (projectNode p) acc.1,
       mapInsert p.project_id [] acc.2.1,
       mapInsert p.project_id [] acc.2.2))
    ([], [], [])
  let er := ps.foldl (fun er p => addProjectEdges (mapKeys init.1) p er)
    (init.2.1, init.2.2)
  { nodes := init.1, edges := er.1, reverse_edges := er.2 }

def MAX_RECURSION_DEPTH : Nat := 100

/-- Mutable traversal state of `Cortex.detect_cycles` (the `visited` and
`rec_stack` sets, the `path` list and the accumulated `cycles`). -/
structure DfsState where
  visited : List String
  rec_stack : List String
  path : List String
  cycles : List (List String)
deriving DecidableEq, Repr

/-- The `for neighbor in edges.get(node, [])` loop inside `dfs`, with the
recursive visit of an unvisited neighbor abstracted as `visit`. -/
def dfsNeighbors (visit : String → DfsState → Bool × DfsState) :
    List String → DfsState → Bool × DfsState
  | [], st => (false, st)
  | n :: rest, st =>
    if n ∉ st.visited then
      let res := visit n st
      if res.1 then res else dfsNeighbors visit rest res.2
    else if n ∈ st.rec_stack then
      let cycle_start := List.indexOf n st.path
      let cycle := st.path.drop cycle_start ++ [n]
      (true, { st with cycles := st.cycles ++ [cycle] })
    else dfsNeighbors visit rest st

/-- One call of the inner `dfs(node, depth)`; `fuel` counts the remaining
depth budget, so `fuel = 0` is the `depth > MAX_RECURSION_DEPTH` abort
branch (which returns `False` without visiting). -/
def dfsVisit (edges : List (String × List String)) : Nat → String → DfsState →
    Bool × DfsState
  | 0, _, st => (false, st)
  | fuel + 1, node, st =>
    let st1 : DfsState :=
      { st with visited := node :: st.visited,
                rec_stack := node :: st.rec_stack,
                path := st.path ++ [node] }
    let res := dfsNeighbors (dfsVisit edges fuel) ((mapLookup node edges).getD []) st1
    if res.1 then res
    else
      (false,
       { res.2 with path := res.2.path.dropLast,
                    rec_stack := res.2.rec_stack.erase node })

/-- Detect cycles in the dependency graph (`Cortex.detect_cycles`).
Python iterates the unordered node set; `order` supplies that iteration order
explicitly. -/
def detect_cycles (ps : List Project) (order : List String) : List (List String) :=
  let graph := build_dependency_graph ps
  let final := order.foldl
    (fun st node =>
      if node ∉ st.visited then
        (dfsVisit graph.edges (MAX_RECURSION_DEPTH + 1) node st).2
      else st)
    { visited := [], rec_stack := [], path := [], cycles := [] }
  final.cycles

/-- The `project_statuses` lookup built inside `has_unresolved_blockers`
(a Python dict comprehension: a later duplicate id overrides an earlier one). -/
def project_statuses (all_projects : List Project) : List (String × String) :=
  all_projects.foldl (fun m p => mapInsert p.project_id (p.status.getD "unknown") m) []

/-- Check if a project has unresolved blocking dependencies
(`Cortex.has_unresolved_blockers`). -/
def has_unresolved_blockers (p : Project) (all_projects : List Project) : Bool :=
  if p.blocked_by.isEmpty then false
  else
    let statuses := project_statuses all_projects
    p.blocked_by.any (fun blocker_id =>
      match mapLookup blocker_id statuses with
      | none => true
      | some blocker_status => decide (blocker_status ≠ "completed"))

/-- Find projects that are ready for work (`Cortex.ready_work`). -/
def ready_work (ps : List Project) : List Project :=
  ps.filter (fun p =>
    decide (p.status.getD "" = "active") && !p.blocked && p.owner.isNone &&
      !has_unresolved_blockers p ps)

/-! ### Agent dispatcher (src/agent_dispatcher.py) -/

/-- The `priority_order` dict lookup with default rank 2
(`priority_order.get(priority, 2)`). -/
def priority_order_rank (priority : String) : Nat :=
  if priority = "critical" then 0
  else if priority = "high" then 1
  else if priority = "medium" then 2
  else if priority = "low" then 3
  else 2

/-- The `sort_key` closure of `AgentDispatcher.select_work`: priority rank,
then the parsed `last_updated` timestamp, where a missing or unparsable
timestamp becomes `datetime.max` (modelled as `⊤`). -/
def sort_key (p : Project) : Nat × WithTop Nat :=
  (priority_order_rank (p.priority.getD "medium"),
   match p.last_updated with
   | some t => (t : WithTop Nat)
   | none => ⊤)

/-- Python's lexicographic comparison of `sort_key` tuples. -/
def key_le (a b : Nat × WithTop Nat) : Prop :=
  a.1 < b.1 ∨ (a.1 = b.1 ∧ a.2 ≤ b.2)

instance (a b : Nat × WithTop Nat) : Decidable (key_le a b) := by
  unfold key_le
  infer_instance

/-- Stable insertion step of `sorted(projects, key=sort_key)`. -/
def sorted_insert (x : Project) : List Project → List Project
  | [] => [x]
  | y :: ys =>
      if key_le (sort_key x) (sort_key y) then x :: y :: ys
      else y :: sorted_insert x ys

/-- Stable sort by `sort_key` (Python's `sorted` is a stable sort; this
insertion sort places an earlier element before later equal-key elements,
matching that semantics). -/
def sorted_by_key (ps : List Project) : List Project :=
  ps.foldr sorted_insert []

/-- Select the highest priority project ready for work
(`AgentDispatcher.select_work` on an explicit candidate list). -/
def select_work (projects : List Project) : Option Project :=
  (sorted_by_key projects).head?

/-- Loop state of `AgentDispatcher.run_cycle`: the abstract world `W` models
the filesystem the dispatcher reads ready work from and dispatches into;
`log` records each project path passed to `dispatch`, in order. -/
structure CycleState (W : Type) where
  world : W
  ready : List Project
  attempted : List String
  dispatched : Nat
  log : List String

/-- The `for _ in range(max_dispatches)` loop body of
`AgentDispatcher.run_cycle`: refresh candidates once something was
dispatched, subtract attempted paths, select, mark attempted, dispatch. -/
def run_cycle_aux {W : Type} (readyWork : W → List Project)
    (dispatchFn : W → Project → Bool × W) :
    Nat → CycleState W → CycleState W
  | 0, st => st
  | fuel + 1, st =>
    let ready := if st.dispatched > 0 then readyWork st.world else st.ready
    let avail := ready.filter (fun p => decide (p.path ∉ st.attempted))
    match select_work avail with
    | none => { st with ready := ready }
    | some p =>
      let res := dispatchFn st.world p
      run_cycle_aux readyWork dispatchFn fuel
        { world := res.2,
          ready := ready,
          attempted := p.path :: st.attempted,
          dispatched := if res.1 then st.dispatched + 1 else st.dispatched,
          log := st.log ++ [p.path] }

/-- The dispatch portion of `AgentDispatcher.run_cycle` (environment
validation and logging elided; the initial candidate list is read once
before the loop). -/
def run_cycle {W : Type} (readyWork : W → List Project)
    (dispatchFn : W → Project → Bool × W) (max_dispatches : Nat) (w0 : W) :
    CycleState W :=
  run_cycle_aux readyWork dispatchFn max_dispatches
    { world := w0, ready := readyWork w0, attempted := [], dispatched := 0,
      log := [] }

/-! ### YOLO loop (src/yolo_loop.py) -/

/-- Status of a YOLO loop (`LoopStatus`). -/
inductive LoopStatus where
  | pending
  | running
  | completed
  | failed
  | cancelled
  | timeout
  | circuit_break
deriving DecidableEq, Repr

/-- The `.value` string of a `LoopStatus`. -/
def LoopStatus.value : LoopStatus → String
  | .pending => "pending"
  | .running => "running"
  | .completed => "completed"
  | .failed => "failed"
  | .cancelled => "cancelled"
  | .timeout => "timeout"
  | .circuit_break => "circuit_break"

/-- Configuration for a YOLO loop (`LoopConfig`, the fields `run` reads). -/
structure LoopConfig where
  max_iterations : Nat
  timeout_seconds : Nat
  circuit_breaker_threshold : Nat
  rate_limit_per_hour : Nat
  completion_markers : List String
deriving Repr

/-- State tracking for a running loop (`LoopState`); times are seconds. -/
structure LoopState where
  status : LoopStatus
  current_iteration : Nat
  consecutive_failures : Nat
  api_calls_this_hour : Nat
  hour_started : Nat
  start_time : Nat
  last_output : String
  error_log : List String
  history : List (Nat × Bool)
deriving Repr

/-- Check if we are within rate limits (`YoloLoop._check_rate_limit`):
returns the pass flag plus the state after the hourly-window reset. -/
def check_rate_limit (cfg : LoopConfig) (now : Nat) (st : LoopState) :
    Bool × LoopState :=
  let st :=
    if now - st.hour_started > 3600 then
      { st with api_calls_this_hour := 0, hour_started := now }
    else st
  (decide (st.api_calls_this_hour < cfg.rate_limit_per_hour), st)

/-- Check if the circuit breaker allows another iteration
(`YoloLoop._check_circuit_breaker`): `false` means triggered. -/
def check_circuit_breaker (cfg : LoopConfig) (st : LoopState) : Bool :=
  decide (st.consecutive_failures < cfg.circuit_breaker_threshold)

/-- Whether `s` starts with the pattern `pat`. -/
def startsWithChars : List Char → List Char → Bool
  | [], _ => true
  | _ :: _, [] => false
  | p :: ps, c :: cs => p = c && startsWithChars ps cs

/-- Whether `pat` occurs as a contiguous substring of `s` (Python `pat in s`). -/
def containsChars (s pat : List Char) : Bool :=
  match s with
  | [] => pat.isEmpty
  | _ :: rest => startsWithChars pat s || containsChars rest pat

/-- Check if output indicates task completion (`YoloLoop._check_completion`):
case-insensitive substring match against any configured marker. -/
def check_completion (markers : List String) (output : String) : Bool :=
  markers.any (fun marker => containsChars output.toUpper.toList marker.toUpper.toList)

/-- The `for iteration in range(1, max_iterations + 1)` body of
`YoloLoop.run`. `executor` is the injected iteration backend
(`_execute_iteration`), `stop_requested` the externally set cancellation
flag, and `clock` the wall clock sampled at the top of iteration `i`.
The empty-list case is the `for ... else` arm. -/
def run_iters (cfg : LoopConfig) (executor : Nat → Bool × String)
    (stop_requested : Nat → Bool) (clock : Nat → Nat) :
    List Nat → LoopState → LoopState
  | [], st => if st.status = .running then { st with status := .failed } else st
  | i :: rest, st =>
    if stop_requested i then { st with status := .cancelled }
    else
      let rateRes := check_rate_limit cfg (clock i) st
      if !rateRes.1 then run_iters cfg executor stop_requested clock rest rateRes.2
      else
        let st := rateRes.2
        if !check_circuit_breaker cfg st then { st with status := .circuit_break }
        else if clock i - st.start_time > cfg.timeout_seconds then
          { st with status := .timeout }
        else
          let st := { st with current_iteration := i }
          let res := executor i
          let st :=
            { st with api_calls_this_hour := st.api_calls_this_hour + 1,
                      last_output := res.2,
                      history := st.history ++ [(i, res.1)] }
          if res.1 then
            let st := { st with consecutive_failures := 0 }
            if check_completion cfg.completion_markers res.2 then
              { st with status := .completed }
            else run_iters cfg executor stop_requested clock rest st
          else
            let st :=
              { st with consecutive_failures := st.consecutive_failures + 1,
                        error_log := st.error_log ++ [res.2] }
            run_iters cfg executor stop_requested clock rest st

/-- Run the YOLO loop until completion or limits reached (`YoloLoop.run`).
The loop starts in `running` with counters zeroed and the clock of
iteration 0 as both `start_time` and `hour_started`. -/
def YoloLoop.run (cfg : LoopConfig) (executor : Nat → Bool × String)
    (stop_requested : Nat → Bool) (clock : Nat → Nat) : LoopState :=
  run_iters cfg executor stop_requested clock (List.range' 1 cfg.max_iterations)
    { status := .running, current_iteration := 0, consecutive_failures := 0,
      api_calls_this_hour := 0, hour_started := clock 0, start_time := clock 0,
      last_output := "", error_log := [], history := [] }

/-! ### LoomWeaver release (src/yolo_loop.py, `LoomWeaver.release_project`) -/

/-- The AGENCY.md metadata fields touched by claim/release. -/
structure AgencyMeta where
  owner : Option String
  status : Option String
  blocked : Bool
  blocking_reason : Option String
  last_updated : Option String
deriving DecidableEq, Repr

/-- Replace the first occurrence of a pattern (Python `str.replace(a, b, 1)`). -/
def replaceFirst (s pat repl : String) : String :=
  match s.splitOn pat with
  | [] => s
  | [x] => x
  | x :: rest => x ++ repl ++ String.intercalate pat rest

/-- Append a note to the `## Agent Notes` section, creating it if absent
(the shared content-update logic of `claim_project`/`release_project`). -/
def add_agent_note (content note : String) : String :=
  if (content.splitOn "## Agent Notes").length ≥ 2 then
    replaceFirst content "## Agent Notes" ("## Agent Notes" ++ note)
  else
    content ++ "\n\n## Agent Notes" ++ note

/-- Release a project after loop completion (`LoomWeaver.release_project`):
the metadata/content rewrite, with the two timestamp strings passed in. -/
def LoomWeaver.release_project (meta : AgencyMeta) (content : String)
    (loop_id : String) (status : LoopStatus) (now_iso : String)
    (stamp : String) : AgencyMeta × String :=
  let meta := { meta with owner := none, last_updated := some now_iso }
  let meta :=
    if status = .completed then { meta with status := some "completed" }
    else if status = .failed ∨ status = .circuit_break then
      { meta with
          blocked := true,
          blocking_reason := some
            ("YOLO loop " ++ loop_id ++ " ended with status: " ++ status.value) }
    else meta
  let note := "\n- **" ++ stamp ++ " - YOLO Loop**: Loop " ++ loop_id ++
    " ended with status: " ++ status.value
  (meta, add_agent_note content note)

/-! ### Concrete scenario data used by the claim theorems and witnesses -/

/-- C7 scenario data: priorities `[low, critical, high]`, absent timestamps. -/
def c7_low : Project :=
  { path := "a", project_id := "a", status := some "active", priority := some "low",
    owner := none, blocked := false, blocked_by := [], blocks := [],
    last_updated := none }

def c7_critical : Project :=
  { path := "b", project_id := "b", status := some "active",
    priority := some "critical", owner := none, blocked := false,
    blocked_by := [], blocks := [], last_updated := none }

def c7_high : Project :=
  { path := "c", project_id := "c", status := some "active", priority := some "high",
    owner := none, blocked := false, blocked_by := [], blocks := [],
    last_updated := none }

/-- C7 scenario data: identical priorities, timestamps 10 < 20. -/
def c7_older : Project :=
  { path := "d", project_id := "d", status := some "active", priority := some "medium",
    owner := none, blocked := false, blocked_by := [], blocks := [],
    last_updated := some 10 }

def c7_newer : Project :=
  { path := "e", project_id := "e", status := some "active", priority := some "medium",
    owner := none, blocked := false, blocked_by := [], blocks := [],
    last_updated := some 20 }

/-- C2 scenario data: three ready tasks with ages 1 < 2 < 3. -/
def c2_t1 : Project :=
  { path := "t1", project_id := "t1", status := some "active", priority := none,
    owner := none, blocked := false, blocked_by := [], blocks := [],
    last_updated := some 1 }

def c2_t2 : Project :=
  { path := "t2", project_id := "t2", status := some "active", priority := none,
    owner := none, blocked := false, blocked_by := [], blocks := [],
    last_updated := some 2 }

def c2_t3 : Project :=
  { path := "t3", project_id := "t3", status := some "active", priority := none,
    owner := none, blocked := false, blocked_by := [], blocks := [],
    last_updated := some 3 }

/-- C2 scenario world: the set of already-claimed paths; dispatch of task 2
always fails, others succeed and claim their project. -/
def c2_ready (w : List String) : List Project :=
  [c2_t1, c2_t2, c2_t3].filter (fun p => decide (p.path ∉ w))

def c2_dispatch (w : List String) (p : Project) : Bool × List String :=
  if p.path = "t2" then (false, w) else (true, p.path :: w)

/-- C4 scenario configuration for the witness: threshold 3, ample budget. -/
def c4_cfg : LoopConfig :=
  { max_iterations := 10, timeout_seconds := 1000, circuit_breaker_threshold := 3,
    rate_limit_per_hour := 100, completion_markers := ["LOOP_COMPLETE"] }

/-- C3 scenario data: `c3_t` is blocked by the active task `c3_u`. -/
def c3_u : Project :=
  { path := "U", project_id := "U", status := some "active", priority := none,
    owner := none, blocked := false, blocked_by := [], blocks := [],
    last_updated := none }

def c3_t : Project :=
  { path := "T", project_id := "T", status := some "active", priority := none,
    owner := none, blocked := false, blocked_by := ["U"], blocks := [],
    last_updated := none }

/-- C5 scenario data: the pure three-node cycle A→B→C→A (an edge X→Y is
induced by Y listing X in `blocked_by`). -/
def c5_a : Project :=
  { path := "A", project_id := "A", status := some "active", priority := none,
    owner := none, blocked := false, blocked_by := ["C"], blocks := [],
    last_updated := none }

def c5_b : Project :=
  { path := "B", project_id := "B", status := some "active", priority := none,
    owner := none, blocked := false, blocked_by := ["A"], blocks := [],
    last_updated := none }

def c5_c : Project :=
  { path := "C", project_id := "C", status := some "active", priority := none,
    owner := none, blocked := false, blocked_by := ["B"], blocks := [],
    last_updated := none }

def c5_cycle : List Project := [c5_a, c5_b, c5_c]

/-- C5 counterexample data: the same cycle plus a self-loop B→B. -/
def c5_b_selfloop : Project :=
  { path := "B", project_id := "B", status := some "active", priority := none,
    owner := none, blocked := false, blocked_by := ["A", "B"], blocks := [],
    last_updated := none }

def c5_bad : List Project := [c5_a, c5_b_selfloop, c5_c]

/-- C5 scenario data: the cycle entered from an outside node X→A. -/
def c5_a_entered : Project :=
  { path := "A", project_id := "A", status := some "active", priority := none,
    owner := none, blocked := false, blocked_by := ["C", "X"], blocks := [],
    last_updated := none }

def c5_x : Project :=
  { path := "X", project_id := "X", status := some "active", priority := none,
    owner := none, blocked := false, blocked_by := [], blocks := [],
    last_updated := none }

def c5_entry : List Project := [c5_a_entered, c5_b, c5_c, c5_x]

/-- All 6 traversal orders of the node set of `c5_cycle`. -/
def c5_orders3 : List (List String) :=
  [["A", "B", "C"],
      ["A", "C", "B"],
      ["B", "A", "C"],
      ["B", "C", "A"],
      ["C", "A", "B"],
      ["C", "B", "A"]]

/-- All 24 traversal orders of the node set of `c5_entry`. -/
def c5_orders4 : List (List String) :=
  [["A", "B", "C", "X"],
      ["A", "B", "X", "C"],
      ["A", "C", "B", "X"],
      ["A", "C", "X", "B"],
      ["A", "X", "B", "C"],
      ["A", "X", "C", "B"],
      ["B", "A", "C", "X"],
      ["B", "A", "X", "C"],
      ["B", "C", "A", "X"],
      ["B", "C", "X", "A"],
      ["B", "X", "A", "C"],
      ["B", "X", "C", "A"],
      ["C", "A", "B", "X"],
      ["C", "A", "X", "B"],
      ["C", "B", "A", "X"],
      ["C", "B", "X", "A"],
      ["C", "X", "A", "B"],
      ["C", "X", "B", "A"],
      ["X", "A", "B", "C"],
      ["X", "A", "C", "B"],
      ["X", "B", "A", "C"],
      ["X", "B", "C", "A"],
      ["X", "C", "A", "B"],
      ["X", "C", "B", "A"]]

/-- C9 counterexample data: a single record B blocked by the unknown id A. -/
def c9_b : Project :=
  { path := "B", project_id := "B", status := some "active", priority := none,
    owner := none, blocked := false, blocked_by := ["A"], blocks := [],
    last_updated := none }

/-- C9 data for the witness: the blocker A with a record of its own. -/
def c9_a : Project :=
  { path := "A", project_id := "A", status := some "active", priority := none,
    owner := none, blocked := false, blocked_by := [], blocks := [],
    last_updated := none }

/-! ### Theorems: association-list map lemmas -/

theorem mapLookup_insert_self {β : Type} (k : String) (v : β) (m : List (String × β)) :
    mapLookup k (mapInsert k v m) = some v := by
  simp [mapInsert, mapLookup]

theorem mapLookup_erase_self {β : Type} (k : String) (m : List (String × β)) :
    mapLookup k (mapErase k m) = none := by
  induction m with
  | nil => rfl
  | cons kv rest ih =>
    by_cases hk : kv.1 = k
    · rw [show mapErase k (kv :: rest) = mapErase k rest from by simp [mapErase, hk]]
      exact ih
    · rw [show mapErase k (kv :: rest) = kv :: mapErase k rest from by simp [mapErase, hk]]
      simpa [mapLookup, hk] using ih

theorem mapLookup_erase_ne {β : Type} {k k' : String} (m : List (String × β))
    (h : k' ≠ k) : mapLookup k (mapErase k' m) = mapLookup k m := by
  induction m with
  | nil => rfl
  | cons kv rest ih =>
    by_cases hk : kv.1 = k'
    · have hk2 : kv.1 ≠ k := by rw [hk]; exact h
      rw [show mapErase k' (kv :: rest) = mapErase k' rest from by simp [mapErase, hk]]
      rw [ih]
      simp [mapLookup, hk2]
    · rw [show mapErase k' (kv :: rest) = kv :: mapErase k' rest from by simp [mapErase, hk]]
      simp [mapLookup, ih]

theorem mapLookup_insert_ne {β : Type} {k k' : String} (v : β) (m : List (String × β))
    (h : k' ≠ k) : mapLookup k (mapInsert k' v m) = mapLookup k m := by
  simp only [mapInsert, mapLookup, if_neg h]
  exact mapLookup_erase_ne m h

/-- Erasing a key preserves distinctness of the keys. -/
theorem mapKeys_erase_nodup {β : Type} (k : String) (m : List (String × β))
    (h : (mapKeys m).Nodup) : (mapKeys (mapErase k m)).Nodup := by
  have hsub : List.Sublist (mapErase k m) m := List.filter_sublist m
  simpa [mapKeys] using ((hsub.map Prod.fst).nodup (by simpa [mapKeys] using h))

theorem mapKeys_insert_nodup {β : Type} (k : String) (v : β) (m : List (String × β))
    (h : (mapKeys m).Nodup) : (mapKeys (mapInsert k v m)).Nodup := by
  have herase := mapKeys_erase_nodup k m h
  have hmem : k ∉ mapKeys (mapErase k m) := by
    intro hmem
    simp only [mapKeys, List.mem_map] at hmem
    obtain ⟨kv, hkv, hfst⟩ := hmem
    simp only [mapErase, List.mem_filter] at hkv
    exact absurd hfst (by simpa using hkv.2)
  have : mapKeys (mapInsert k v m) = k :: mapKeys (mapErase k m) := by
    simp [mapKeys, mapInsert]
  rw [this, List.nodup_cons]
  exact ⟨hmem, herase⟩

theorem mapLookup_some_mem {β : Type} {k : String} {v : β} {m : List (String × β)}
    (h : mapLookup k m = some v) : (k, v) ∈ m := by
  induction m with
  | nil => simp [mapLookup] at h
  | cons kv rest ih =>
    by_cases hk : kv.1 = k
    · simp only [mapLookup, if_pos hk] at h
      cases h
      have hkv : (k, kv.2) = kv := by
        obtain ⟨a, b⟩ := kv
        simp_all
      rw [hkv]
      exact List.mem_cons_self _ _
    · simp only [mapLookup, if_neg hk] at h
      exact List.mem_cons_of_mem _ (ih h)

theorem filter_erase_key_ne {β : Type} {q pid : String} (h : q ≠ pid)
    (P : String × β → Bool) (l : List (String × β)) :
    (mapErase pid l).filter (fun kv => decide (kv.1 = q) && P kv) =
      l.filter (fun kv => decide (kv.1 = q) && P kv) := by
  induction l with
  | nil => rfl
  | cons kv rest ih =>
    by_cases hk : kv.1 = pid
    · have hq : kv.1 ≠ q := by rw [hk]; exact fun he => h he.symm
      rw [show mapErase pid (kv :: rest) = mapErase pid rest from by simp [mapErase, hk]]
      rw [ih]
      simp [List.filter, hq]
    · rw [show mapErase pid (kv :: rest) = kv :: mapErase pid rest from by
        simp [mapErase, hk]]
      by_cases hq : kv.1 = q
      · simp only [List.filter, hq]
        rw [ih]
      · simp only [List.filter, hq]
        simpa [hq] using ih

theorem filter_key_erase_self {β : Type} (pid : String) (P : String × β → Bool)
    (l : List (String × β)) :
    (mapErase pid l).filter (fun kv => decide (kv.1 = pid) && P kv) = [] := by
  rw [List.filter_eq_nil_iff]
  intro kv hkv
  simp only [mapErase, List.mem_filter] at hkv
  have : kv.1 ≠ pid := by simpa using hkv.2
  simp [this]

/-! ### C8 -/

/-- C8: when an execution loop over a claimed project terminates and
`LoomWeaver.release_project` runs, the owner field is always cleared and
`last_updated` refreshed; a `completed` loop sets the project status to
"completed" (leaving the blocked flag and reason alone); a `failed` or
`circuit_break` loop sets `blocked := true` with a blocking reason that
references the loop (leaving status alone); `cancelled`/`timeout` leave
status, blocked flag and reason unchanged. -/
theorem C8_release_project_outcome (meta : AgencyMeta) (content : String)
    (loop_id : String) (status : LoopStatus) (now_iso stamp : String) :
    (LoomWeaver.release_project meta content loop_id status now_iso stamp).1 =
      { owner := none,
        status := if status = .completed then some "completed" else meta.status,
        blocked :=
          if status = .failed ∨ status = .circuit_break then true else meta.blocked,
        blocking_reason :=
          if status = .failed ∨ status = .circuit_break then
            some ("YOLO loop " ++ loop_id ++ " ended with status: " ++ status.value)
          else meta.blocking_reason,
        last_updated := some now_iso } := by
  cases status <;> simp [LoomWeaver.release_project]

/-! ### C10 -/

/-- C10 (amended): extending a live lease always sets `expires_at` to
`now + min ttl_seconds MAX_TTL_SECONDS`, regardless of the previous expiry
and with no lower bound on `ttl_seconds`; a negative `ttl_seconds` puts the
expiry strictly in the past, and any `ttl_seconds ≤ 0` leaves the lease
expired for every strictly later read; the claim endpoint rejects any
`ttl_seconds` below 60 or above `MAX_TTL_SECONDS`; and extending a resource
with no live lease returns 404 and changes no live lease. -/
theorem C10_extend_semantics :
    (∀ (now : Int) (pid : String) (ttl : Int) (store : ReservationStore) (c : Claim),
      mapLookup pid store.claims = some c → Claim.is_expired now c = false →
      extend_claim now pid ttl store =
        (.extended pid (now + min ttl MAX_TTL_SECONDS),
         { store with
             claims := mapInsert pid
               { c with expires_at := now + min ttl MAX_TTL_SECONDS }
               store.claims })) ∧
    (∀ (now ttl : Int), ttl < 0 → now + min ttl MAX_TTL_SECONDS < now) ∧
    (∀ (now : Int) (pid : String) (ttl : Int) (store : ReservationStore) (c : Claim),
      mapLookup pid store.claims = some c → Claim.is_expired now c = false →
      ttl ≤ 0 → ∀ t : Int, now < t →
      (ReservationStore.get_claim t (extend_claim now pid ttl store).2 pid).1 = none) ∧
    (∀ (now : Int) (fresh : String) (req : ClaimRequest) (store : ReservationStore),
      req.ttl_seconds < 60 ∨ MAX_TTL_SECONDS < req.ttl_seconds →
      handle_request false none none now fresh (.claim req) store =
        (.httpError 422, store)) ∧
    (∀ (now : Int) (pid : String) (ttl : Int) (store : ReservationStore),
      live_claims_for now store pid = [] →
      (extend_claim now pid ttl store).1 = .httpError 404 ∧
      ∀ q, live_claims_for now (extend_claim now pid ttl store).2 q =
        live_claims_for now store q) := by
  have hlive : ∀ (now : Int) (pid : String) (ttl : Int) (store : ReservationStore)
      (c : Claim), mapLookup pid store.claims = some c →
      Claim.is_expired now c = false →
      extend_claim now pid ttl store =
        (.extended pid (now + min ttl MAX_TTL_SECONDS),
         { store with
             claims := mapInsert pid
               { c with expires_at := now + min ttl MAX_TTL_SECONDS }
               store.claims }) := by
    intro now pid ttl store c hc hexp
    simp [extend_claim, ReservationStore.get_claim, hc, hexp]
  refine ⟨hlive, ?_, ?_, ?_, ?_⟩
  · intro now ttl httl
    have hmin : min ttl MAX_TTL_SECONDS = ttl :=
      min_eq_left (by unfold MAX_TTL_SECONDS; omega)
    omega
  · intro now pid ttl store c hc hexp httl t ht
    rw [hlive now pid ttl store c hc hexp]
    have hmin : min ttl MAX_TTL_SECONDS = ttl :=
      min_eq_left (by unfold MAX_TTL_SECONDS; omega)
    have hlook := mapLookup_insert_self pid
      { c with expires_at := now + min ttl MAX_TTL_SECONDS } store.claims
    simp only [ReservationStore.get_claim, hlook]
    have : Claim.is_expired t { c with expires_at := now + min ttl MAX_TTL_SECONDS } =
        true := by
      simp only [Claim.is_expired, decide_eq_true_eq]
      omega
    simp [this]
  · intro now fresh req store hout
    have hinvalid : ¬req.valid := by
      unfold ClaimRequest.valid
      unfold MAX_TTL_SECONDS at hout ⊢
      omega
    simp [handle_request, with_auth, verify_api_key, pyFalsy, hinvalid]
  · intro now pid ttl store hlive0
    match hc : mapLookup pid store.claims with
    | none =>
      constructor
      · simp [extend_claim, ReservationStore.get_claim, hc]
      · intro q
        simp [extend_claim, ReservationStore.get_claim, hc]
    | some c =>
      have hmem : (pid, c) ∈ store.claims := mapLookup_some_mem hc
      have hexp : Claim.is_expired now c = true := by
        by_contra hne
        have hnotexp : Claim.is_expired now c = false := by
          simpa using hne
        have : c ∈ live_claims_for now store pid := by
          simp only [live_claims_for, List.mem_map]
          refine ⟨(pid, c), ?_, rfl⟩
          simp [List.mem_filter, hmem, hnotexp]
        rw [hlive0] at this
        simp at this
      have hstep : extend_claim now pid ttl store =
          (.httpError 404, (store.remove_claim_internal pid).2) := by
        simp [extend_claim, ReservationStore.get_claim, hc, hexp]
      rw [hstep]
      refine ⟨rfl, ?_⟩
      intro q
      have hclaims : (store.remove_claim_internal pid).2.claims =
          mapErase pid store.claims := by
        simp [ReservationStore.remove_claim_internal, hc]
      by_cases hq : q = pid
      · subst hq
        rw [hlive0]
        simp only [live_claims_for, hclaims]
        rw [filter_key_erase_self]
        rfl
      · simp only [live_claims_for, hclaims]
        rw [filter_erase_key_ne hq]

/-- C10 counterexample: `extend` with `ttl_seconds = 0` (which the claim
covers via "ttl_seconds ≤ 0") sets `expires_at` to the current time, not
into the past, and a read at that same time still returns the lease, so it
is not immediately expired. -/
theorem C10_counterexample :
    (extend_claim 100 "p" 0
        { claims := [("p",
            { claim_id := "id1", project_id := "p", agent_name := "alice",
              created_at := 0, expires_at := 1000 })],
          claims_by_id := [("id1", "p")] }).1 = .extended "p" 100 ∧
    ¬(100 < (100 : Int)) ∧
    (ReservationStore.get_claim 100
        (extend_claim 100 "p" 0
          { claims := [("p",
              { claim_id := "id1", project_id := "p", agent_name := "alice",
                created_at := 0, expires_at := 1000 })],
            claims_by_id := [("id1", "p")] }).2 "p").1 =
      some { claim_id := "id1", project_id := "p", agent_name := "alice",
             created_at := 0, expires_at := 100 } := by
  refine ⟨by decide, by decide, by decide⟩

/-- C10 witness: the amended theorem applied to a concrete live lease,
concrete out-of-range claim requests and a concrete empty store. -/
theorem C10_extend_semantics_witness :
    extend_claim 100 "p" (-50)
        { claims := [("p",
            { claim_id := "id1", project_id := "p", agent_name := "alice",
              created_at := 0, expires_at := 1000 })],
          claims_by_id := [("id1", "p")] } =
      (.extended "p" 50,
       { claims := [("p",
           { claim_id := "id1", project_id := "p", agent_name := "alice",
             created_at := 0, expires_at := 50 })],
         claims_by_id := [("id1", "p")] }) ∧
    (50 : Int) + min (-50 : Int) MAX_TTL_SECONDS < 50 ∧
    (ReservationStore.get_claim 101
        (extend_claim 100 "p" (-50)
          { claims := [("p",
              { claim_id := "id1", project_id := "p", agent_name := "alice",
                created_at := 0, expires_at := 1000 })],
            claims_by_id := [("id1", "p")] }).2 "p").1 = none ∧
    handle_request false none none 0 "f"
        (.claim { project_id := "p", agent_name := "a", ttl_seconds := 10 })
        ReservationStore.empty =
      (.httpError 422, ReservationStore.empty) ∧
    (extend_claim 0 "q" 60 ReservationStore.empty).1 = .httpError 404 := by
  have h := C10_extend_semantics
  refine ⟨?_, ?_, ?_, ?_, ?_⟩
  · have := h.1 100 "p" (-50)
      { claims := [("p",
          { claim_id := "id1", project_id := "p", agent_name := "alice",
            created_at := 0, expires_at := 1000 })],
        claims_by_id := [("id1", "p")] }
      { claim_id := "id1", project_id := "p", agent_name := "alice",
        created_at := 0, expires_at := 1000 } (by decide) (by decide)
    rw [this]
    decide
  · exact h.2.1 50 (-50) (by decide)
  · exact h.2.2.1 100 "p" (-50) _
      { claim_id := "id1", project_id := "p", agent_name := "alice",
        created_at := 0, expires_at := 1000 } (by decide) (by decide) (by decide)
      101 (by decide)
  · exact h.2.2.2.1 0 "f" { project_id := "p", agent_name := "a", ttl_seconds := 10 }
      ReservationStore.empty (Or.inl (by decide))
  · exact (h.2.2.2.2 0 "q" 60 ReservationStore.empty (by decide)).1

/-! ### C6 -/

/-- C6: when authentication is required but the secret is absent (unset or
empty), every mutating request is rejected with a 500 for all inputs and all
supplied credentials (fails closed); when a non-empty secret is configured,
a mutating request is rejected with a 401 unless the presented bearer
credential equals the secret, and with the matching credential the
authentication dependency passes; the read-only endpoints (`health`,
`status`, `reservations`) never consult the credential under any
configuration. -/
theorem C6_auth_fails_closed (api_key : Option String) (credentials : Option String)
    (now : Int) (fresh : String) (ep : Endpoint) (store : ReservationStore) :
    (ep.requires_auth = true → pyFalsy api_key = true →
      handle_request true api_key credentials now fresh ep store =
        (.httpError 500, store)) ∧
    (∀ (require_auth : Bool) (s : String), api_key = some s → s ≠ "" →
      ep.requires_auth = true →
      ((credentials ≠ some s →
        handle_request require_auth api_key credentials now fresh ep store =
          (.httpError 401, store)) ∧
       (credentials = some s →
        verify_api_key require_auth api_key credentials = .ok true))) ∧
    (ep.requires_auth = false → ∀ credentials2 : Option String,
      handle_request true api_key credentials now fresh ep store =
        handle_request true api_key credentials2 now fresh ep store) := by
  refine ⟨?_, ?_, ?_⟩
  · intro hreq hfalsy
    have hverify : verify_api_key true api_key credentials = .error 500 := by
      simp [verify_api_key, hfalsy]
    cases ep <;> simp_all [handle_request, with_auth, Endpoint.requires_auth]
  · intro require_auth s hkey hs hreq
    have hfalsy : pyFalsy api_key = false := by
      simp [hkey, pyFalsy, hs]
    constructor
    · intro hcred
      have hverify : verify_api_key require_auth api_key credentials = .error 401 := by
        match credentials with
        | none => simp [verify_api_key, hfalsy]
        | some cred =>
            have hne : ¬cred = api_key.getD "" := by
              rw [hkey]
              intro he
              exact hcred (by simp [he])
            simp [verify_api_key, hfalsy, hne]
      cases ep <;> simp_all [handle_request, with_auth, Endpoint.requires_auth]
    · intro hcred
      subst hcred
      have hfalsy2 : pyFalsy (some s) = false := by simpa [hkey] using hfalsy
      rw [hkey]
      simp [verify_api_key, hfalsy2]
  · intro hreq credentials2
    cases ep <;> simp_all [handle_request, Endpoint.requires_auth]

/-- C6 witness: the theorem applied to the `release` endpoint with a missing
key, then with the configured secret "s3cret" and both a wrong and the right
credential, and to the read-only `health` endpoint. -/
theorem C6_auth_fails_closed_witness :
    handle_request true none (some "anything") 0 "f" (.release "p")
        ReservationStore.empty = (.httpError 500, ReservationStore.empty) ∧
    handle_request true (some "s3cret") (some "wrong") 0 "f" (.release "p")
        ReservationStore.empty = (.httpError 401, ReservationStore.empty) ∧
    verify_api_key true (some "s3cret") (some "s3cret") = .ok true ∧
    handle_request true none (some "anything") 0 "f" .health ReservationStore.empty =
      handle_request true none none 0 "f" .health ReservationStore.empty := by
  refine ⟨?_, ?_, ?_, ?_⟩
  · exact (C6_auth_fails_closed none (some "anything") 0 "f" (.release "p")
      ReservationStore.empty).1 rfl rfl
  · exact ((C6_auth_fails_closed (some "s3cret") (some "wrong") 0 "f" (.release "p")
      ReservationStore.empty).2.1 true "s3cret" rfl (by decide) rfl).1 (by decide)
  · exact ((C6_auth_fails_closed (some "s3cret") (some "s3cret") 0 "f" (.release "p")
      ReservationStore.empty).2.1 true "s3cret" rfl (by decide) rfl).2 rfl
  · exact (C6_auth_fails_closed none (some "anything") 0 "f" .health
      ReservationStore.empty).2.2 rfl none

/-! ### C1 -/

theorem nodup_remove_claim_internal (s : ReservationStore) (pid : String)
    (h : StoreKeysNodup s) : StoreKeysNodup (s.remove_claim_internal pid).2 := by
  unfold ReservationStore.remove_claim_internal
  cases hc : mapLookup pid s.claims with
  | none => simpa using h
  | some c => exact mapKeys_erase_nodup pid s.claims h

theorem nodup_get_claim (now : Int) (s : ReservationStore) (pid : String)
    (h : StoreKeysNodup s) : StoreKeysNodup (ReservationStore.get_claim now s pid).2 := by
  unfold ReservationStore.get_claim
  cases hc : mapLookup pid s.claims with
  | none => simpa using h
  | some c =>
      by_cases hexp : Claim.is_expired now c
      · simpa [hexp] using nodup_remove_claim_internal s pid h
      · simpa [hexp] using h

theorem nodup_add_claim (s : ReservationStore) (c : Claim) (h : StoreKeysNodup s) :
    StoreKeysNodup (s.add_claim c) :=
  mapKeys_insert_nodup c.project_id c s.claims h

theorem nodup_cleanup_fold (l : List (String × Claim)) (s : ReservationStore)
    (h : StoreKeysNodup s) :
    StoreKeysNodup (l.foldl (fun s kv => (s.remove_claim_internal kv.1).2) s) := by
  induction l generalizing s with
  | nil => exact h
  | cons kv rest ih => exact ih _ (nodup_remove_claim_internal s kv.1 h)

theorem nodup_cleanup (now : Int) (s : ReservationStore) (h : StoreKeysNodup s) :
    StoreKeysNodup (s.cleanup_expired now) :=
  nodup_cleanup_fold _ s h

theorem nodup_claim_project (now : Int) (fresh : String) (req : ClaimRequest)
    (s : ReservationStore) (h : StoreKeysNodup s) :
    StoreKeysNodup (claim_project now fresh req s).2 := by
  cases hc : mapLookup req.project_id s.claims with
  | none =>
      have : StoreKeysNodup (s.add_claim
          { claim_id := fresh, project_id := req.project_id,
            agent_name := req.agent_name, created_at := now,
            expires_at := now + req.ttl_seconds }) := nodup_add_claim s _ h
      simpa [claim_project, ReservationStore.get_claim, hc] using this
  | some c =>
      by_cases hexp : Claim.is_expired now c
      · have : StoreKeysNodup ((s.remove_claim_internal req.project_id).2.add_claim
            { claim_id := fresh, project_id := req.project_id,
              agent_name := req.agent_name, created_at := now,
              expires_at := now + req.ttl_seconds }) :=
          nodup_add_claim _ _ (nodup_remove_claim_internal s req.project_id h)
        simpa [claim_project, ReservationStore.get_claim, hc, hexp] using this
      · simpa [claim_project, ReservationStore.get_claim, hc, hexp] using h

theorem nodup_extend_claim (now : Int) (pid : String) (ttl : Int)
    (s : ReservationStore) (h : StoreKeysNodup s) :
    StoreKeysNodup (extend_claim now pid ttl s).2 := by
  cases hc : mapLookup pid s.claims with
  | none => simpa [extend_claim, ReservationStore.get_claim, hc] using h
  | some c =>
      by_cases hexp : Claim.is_expired now c
      · have : StoreKeysNodup (s.remove_claim_internal pid).2 :=
          nodup_remove_claim_internal s pid h
        simpa [extend_claim, ReservationStore.get_claim, hc, hexp] using this
      · have : (mapKeys (mapInsert pid
            { claim_id := c.claim_id, project_id := c.project_id,
              agent_name := c.agent_name, created_at := c.created_at,
              expires_at := now + min ttl MAX_TTL_SECONDS } s.claims)).Nodup :=
          mapKeys_insert_nodup pid _ s.claims h
        simpa [extend_claim, ReservationStore.get_claim, hc, hexp,
          StoreKeysNodup] using this

theorem nodup_apply (op : CoordOp) (s : ReservationStore) (h : StoreKeysNodup s) :
    StoreKeysNodup (op.apply s) := by
  cases op with
  | claim now fresh req => exact nodup_claim_project now fresh req s h
  | release now pid =>
      have h1 := nodup_remove_claim_internal s pid h
      cases hc : mapLookup pid s.claims with
      | none =>
          simpa [CoordOp.apply, release_project, ReservationStore.remove_claim,
            ReservationStore.remove_claim_internal, hc] using h
      | some c =>
          simpa [CoordOp.apply, release_project, ReservationStore.remove_claim,
            ReservationStore.remove_claim_internal, hc] using
            (mapKeys_erase_nodup pid s.claims h)
  | releaseByClaim now cid =>
      cases hc : mapLookup cid s.claims_by_id with
      | none =>
          simpa [CoordOp.apply, release_by_claim_id,
            ReservationStore.remove_claim_by_id, hc] using h
      | some pid =>
          cases hc2 : mapLookup pid s.claims with
          | none =>
              simpa [CoordOp.apply, release_by_claim_id,
                ReservationStore.remove_claim_by_id,
                ReservationStore.remove_claim_internal, hc, hc2] using h
          | some c =>
              simpa [CoordOp.apply, release_by_claim_id,
                ReservationStore.remove_claim_by_id,
                ReservationStore.remove_claim_internal, hc, hc2] using
                (mapKeys_erase_nodup pid s.claims h)
  | statusOf now pid => exact nodup_get_claim now s pid h
  | reservations now => exact nodup_cleanup now s h
  | health now => exact nodup_cleanup now s h
  | extend now pid ttl => exact nodup_extend_claim now pid ttl s h
  | cleanup now => exact nodup_cleanup now s h

theorem nodup_run_ops (ops : List CoordOp) :
    StoreKeysNodup (run_ops ops ReservationStore.empty) := by
  have haux : ∀ (l : List CoordOp) (s : ReservationStore), StoreKeysNodup s →
      StoreKeysNodup (l.foldl (fun s op => op.apply s) s) := by
    intro l
    induction l with
    | nil => intro s h; exact h
    | cons op rest ih => intro s h; exact ih _ (nodup_apply op s h)
  exact haux ops ReservationStore.empty (by simp [ReservationStore.empty, mapKeys, StoreKeysNodup])

theorem length_filter_key_le_one {β : Type} (pid : String) (P : String × β → Bool)
    (l : List (String × β)) (h : (mapKeys l).Nodup) :
    (l.filter (fun kv => decide (kv.1 = pid) && P kv)).length ≤ 1 := by
  induction l with
  | nil => simp
  | cons kv rest ih =>
    have hkeys : kv.1 ∉ mapKeys rest ∧ (mapKeys rest).Nodup := by
      simpa [mapKeys] using h
    by_cases hk : kv.1 = pid
    · have hrest : rest.filter (fun kv => decide (kv.1 = pid) && P kv) = [] := by
        rw [List.filter_eq_nil_iff]
        intro kv2 hkv2
        have : kv2.1 ≠ pid := by
          intro he
          exact hkeys.1 (by
            rw [hk, ← he]
            exact List.mem_map_of_mem Prod.fst hkv2)
        simp [this]
      by_cases hp : P kv
      · simp [List.filter, hk, hp, hrest]
      · simp only [List.filter, hk, hp]
        simp [hrest, hp]
    · simp only [List.filter]
      have : (decide (kv.1 = pid) && P kv) = false := by simp [hk]
      rw [this]
      exact ih hkeys.2

theorem live_claims_le_one (now : Int) (s : ReservationStore) (pid : String)
    (h : StoreKeysNodup s) : (live_claims_for now s pid).length ≤ 1 := by
  unfold live_claims_for
  rw [List.length_map]
  exact length_filter_key_le_one pid (fun kv => !Claim.is_expired now kv.2) s.claims h

/-- C1: (1) after any sequence of coordinator operations starting from the
empty store, at most one live (non-expired) lease exists per resource id at
any time; (2) a claim for a resource holding a live lease returns a conflict
result carrying the holder, claim time and expiry, and leaves the store
unchanged (no exception, no grant); (3) a claim for a resource with no lease
is granted a fresh lease expiring `ttl_seconds` from now; (4) a claim for a
resource whose lease has expired lazily evicts it and is granted a fresh
lease. -/
theorem C1_at_most_one_live_lease :
    (∀ (ops : List CoordOp) (now : Int) (pid : String),
      (live_claims_for now (run_ops ops ReservationStore.empty) pid).length ≤ 1) ∧
    (∀ (now : Int) (fresh : String) (req : ClaimRequest) (store : ReservationStore)
      (c : Claim), mapLookup req.project_id store.claims = some c →
      Claim.is_expired now c = false →
      claim_project now fresh req store =
        (.claimConflict c.agent_name c.created_at c.expires_at, store)) ∧
    (∀ (now : Int) (fresh : String) (req : ClaimRequest) (store : ReservationStore),
      mapLookup req.project_id store.claims = none →
      claim_project now fresh req store =
        (.claimGranted fresh req.project_id req.agent_name (now + req.ttl_seconds),
         store.add_claim
           { claim_id := fresh, project_id := req.project_id,
             agent_name := req.agent_name, created_at := now,
             expires_at := now + req.ttl_seconds })) ∧
    (∀ (now : Int) (fresh : String) (req : ClaimRequest) (store : ReservationStore)
      (c : Claim), mapLookup req.project_id store.claims = some c →
      Claim.is_expired now c = true →
      claim_project now fresh req store =
        (.claimGranted fresh req.project_id req.agent_name (now + req.ttl_seconds),
         ((store.remove_claim_internal req.project_id).2).add_claim
           { claim_id := fresh, project_id := req.project_id,
             agent_name := req.agent_name, created_at := now,
             expires_at := now + req.ttl_seconds })) := by
  refine ⟨?_, ?_, ?_, ?_⟩
  · intro ops now pid
    exact live_claims_le_one now _ pid (nodup_run_ops ops)
  · intro now fresh req store c hc hexp
    simp [claim_project, ReservationStore.get_claim, hc, hexp]
  · intro now fresh req store hc
    simp [claim_project, ReservationStore.get_claim, hc]
  · intro now fresh req store c hc hexp
    simp [claim_project, ReservationStore.get_claim, hc, hexp]

/-- C1 witness: the theorem applied to a concrete operation sequence (two
competing claims and a release) and to concrete conflict/grant/expiry
scenarios. -/
theorem C1_at_most_one_live_lease_witness :
    (live_claims_for 100
      (run_ops
        [.claim 0 "id1" { project_id := "p", agent_name := "alice", ttl_seconds := 3600 },
         .claim 50 "id2" { project_id := "p", agent_name := "bob", ttl_seconds := 3600 },
         .claim 60 "id3" { project_id := "q", agent_name := "carol", ttl_seconds := 3600 }]
        ReservationStore.empty) "p").length ≤ 1 ∧
    claim_project 50 "id2" { project_id := "p", agent_name := "bob", ttl_seconds := 3600 }
      { claims := [("p",
          { claim_id := "id1", project_id := "p", agent_name := "alice",
            created_at := 0, expires_at := 3600 })],
        claims_by_id := [("id1", "p")] } =
      (.claimConflict "alice" 0 3600,
       { claims := [("p",
           { claim_id := "id1", project_id := "p", agent_name := "alice",
             created_at := 0, expires_at := 3600 })],
         claims_by_id := [("id1", "p")] }) ∧
    claim_project 0 "id1" { project_id := "p", agent_name := "alice", ttl_seconds := 3600 }
      ReservationStore.empty =
      (.claimGranted "id1" "p" "alice" 3600,
       ReservationStore.empty.add_claim
         { claim_id := "id1", project_id := "p", agent_name := "alice",
           created_at := 0, expires_at := 3600 }) ∧
    claim_project 4000 "id2" { project_id := "p", agent_name := "bob", ttl_seconds := 60 }
      { claims := [("p",
          { claim_id := "id1", project_id := "p", agent_name := "alice",
            created_at := 0, expires_at := 3600 })],
        claims_by_id := [("id1", "p")] } =
      (.claimGranted "id2" "p" "bob" 4060,
       (({ claims := [("p",
             { claim_id := "id1", project_id := "p", agent_name := "alice",
               created_at := 0, expires_at := 3600 })],
           claims_by_id := [("id1", "p")] } :
             ReservationStore).remove_claim_internal "p").2.add_claim
         { claim_id := "id2", project_id := "p", agent_name := "bob",
           created_at := 4000, expires_at := 4060 }) := by
  have h := C1_at_most_one_live_lease
  refine ⟨?_, ?_, ?_, ?_⟩
  · exact h.1
      [.claim 0 "id1" { project_id := "p", agent_name := "alice", ttl_seconds := 3600 },
       .claim 50 "id2" { project_id := "p", agent_name := "bob", ttl_seconds := 3600 },
       .claim 60 "id3" { project_id := "q", agent_name := "carol", ttl_seconds := 3600 }]
      100 "p"
  · exact h.2.1 50 "id2" { project_id := "p", agent_name := "bob", ttl_seconds := 3600 }
      _ { claim_id := "id1", project_id := "p", agent_name := "alice",
          created_at := 0, expires_at := 3600 } (by decide) (by decide)
  · exact h.2.2.1 0 "id1"
      { project_id := "p", agent_name := "alice", ttl_seconds := 3600 }
      ReservationStore.empty (by decide)
  · exact h.2.2.2 4000 "id2" { project_id := "p", agent_name := "bob", ttl_seconds := 60 }
      _ { claim_id := "id1", project_id := "p", agent_name := "alice",
          created_at := 0, expires_at := 3600 } (by decide) (by decide)

/-! ### C7 -/

theorem key_le_refl (a : Nat × WithTop Nat) : key_le a a := by
  right
  exact ⟨rfl, le_refl _⟩

theorem key_le_total (a b : Nat × WithTop Nat) : key_le a b ∨ key_le b a := by
  unfold key_le
  rcases lt_trichotomy a.1 b.1 with h | h | h
  · exact Or.inl (Or.inl h)
  · rcases le_total a.2 b.2 with h2 | h2
    · exact Or.inl (Or.inr ⟨h, h2⟩)
    · exact Or.inr (Or.inr ⟨h.symm, h2⟩)
  · exact Or.inr (Or.inl h)

theorem key_le_trans {a b c : Nat × WithTop Nat} (h1 : key_le a b) (h2 : key_le b c) :
    key_le a c := by
  unfold key_le at *
  rcases h1 with h1 | ⟨h1e, h1le⟩
  · rcases h2 with h2 | ⟨h2e, _⟩
    · exact Or.inl (h1.trans h2)
    · exact Or.inl (h2e ▸ h1)
  · rcases h2 with h2 | ⟨h2e, h2le⟩
    · exact Or.inl (h1e ▸ h2)
    · exact Or.inr ⟨h1e.trans h2e, h1le.trans h2le⟩

theorem mem_sorted_insert (x y : Project) (l : List Project) :
    y ∈ sorted_insert x l ↔ y = x ∨ y ∈ l := by
  induction l with
  | nil => simp [sorted_insert]
  | cons z zs ih =>
    by_cases h : key_le (sort_key x) (sort_key z)
    · simp [sorted_insert, h]
    · simp only [sorted_insert, if_neg h, List.mem_cons, ih]
      tauto

theorem pairwise_sorted_insert (x : Project) (l : List Project)
    (h : l.Pairwise (fun a b => key_le (sort_key a) (sort_key b))) :
    (sorted_insert x l).Pairwise (fun a b => key_le (sort_key a) (sort_key b)) := by
  induction l with
  | nil => simp [sorted_insert]
  | cons z zs ih =>
    rw [List.pairwise_cons] at h
    by_cases hle : key_le (sort_key x) (sort_key z)
    · rw [show sorted_insert x (z :: zs) = x :: z :: zs from by
        simp [sorted_insert, hle]]
      rw [List.pairwise_cons]
      refine ⟨?_, List.pairwise_cons.mpr h⟩
      intro w hw
      rcases List.mem_cons.mp hw with hw | hw
      · exact hw ▸ hle
      · exact key_le_trans hle (h.1 w hw)
    · rw [show sorted_insert x (z :: zs) = z :: sorted_insert x zs from by
        simp [sorted_insert, hle]]
      rw [List.pairwise_cons]
      refine ⟨?_, ih h.2⟩
      intro w hw
      rcases (mem_sorted_insert x w zs).mp hw with hw | hw
      · rcases key_le_total (sort_key x) (sort_key z) with hc | hc
        · exact absurd hc hle
        · rw [hw]
          exact hc
      · exact h.1 w hw

theorem mem_sorted_by_key (y : Project) (ps : List Project) :
    y ∈ sorted_by_key ps ↔ y ∈ ps := by
  induction ps with
  | nil => simp [sorted_by_key]
  | cons p rest ih =>
    simp only [sorted_by_key, List.foldr_cons]
    rw [mem_sorted_insert]
    simp only [sorted_by_key] at ih
    rw [ih]
    simp [eq_comm]

theorem pairwise_sorted_by_key (ps : List Project) :
    (sorted_by_key ps).Pairwise (fun a b => key_le (sort_key a) (sort_key b)) := by
  induction ps with
  | nil => simp [sorted_by_key]
  | cons p rest ih => exact pairwise_sorted_insert p _ ih

theorem select_work_spec {ps : List Project} {p : Project}
    (h : select_work ps = some p) :
    p ∈ ps ∧ ∀ q ∈ ps, key_le (sort_key p) (sort_key q) := by
  unfold select_work at h
  cases hs : sorted_by_key ps with
  | nil => rw [hs] at h; simp at h
  | cons hd tl =>
    rw [hs] at h
    simp only [List.head?] at h
    cases h
    have hpair := pairwise_sorted_by_key ps
    rw [hs, List.pairwise_cons] at hpair
    constructor
    · exact (mem_sorted_by_key p ps).mp (by rw [hs]; exact List.mem_cons_self _ _)
    · intro q hq
      have hq2 : q ∈ sorted_by_key ps := (mem_sorted_by_key q ps).mpr hq
      rw [hs] at hq2
      rcases List.mem_cons.mp hq2 with hq2 | hq2
      · exact hq2 ▸ key_le_refl _
      · exact hpair.1 q hq2

theorem select_work_none {ps : List Project} (h : select_work ps = none) :
    ps = [] := by
  unfold select_work at h
  cases hs : sorted_by_key ps with
  | nil =>
      cases ps with
      | nil => rfl
      | cons p rest =>
          exfalso
          have : p ∈ sorted_by_key (p :: rest) :=
            (mem_sorted_by_key p (p :: rest)).mpr (List.mem_cons_self _ _)
          rw [hs] at this
          simp at this
  | cons hd tl => rw [hs] at h; simp [List.head?] at h

/-- C7: on every non-empty candidate list `select_work` returns a candidate
that is minimal for the ordering "priority rank (critical, high, medium, low;
unknown or missing ranked as medium) then oldest parsed `last_updated`,
missing or unparsable timestamps comparing as infinitely new"; in particular
among priorities `[low, critical, high]` with absent timestamps the critical
task is selected, and between identical priorities with timestamps 10 < 20
the older one is selected. -/
theorem C7_select_work_minimal :
    (∀ projects : List Project, projects ≠ [] →
      ∃ p, select_work projects = some p ∧ p ∈ projects ∧
        ∀ q ∈ projects, key_le (sort_key p) (sort_key q)) ∧
    select_work [c7_low, c7_critical, c7_high] = some c7_critical ∧
    select_work [c7_newer, c7_older] = some c7_older := by
  refine ⟨?_, by decide, by decide⟩
  intro projects hne
  cases hsel : select_work projects with
  | none => exact absurd (select_work_none hsel) hne
  | some p =>
      obtain ⟨hmem, hmin⟩ := select_work_spec hsel
      exact ⟨p, rfl, hmem, hmin⟩

/-- C7 witness: the minimality statement applied to the concrete three-task
scenario list. -/
theorem C7_select_work_minimal_witness :
    ∃ p, select_work [c7_low, c7_critical, c7_high] = some p ∧
      p ∈ [c7_low, c7_critical, c7_high] ∧
      ∀ q ∈ [c7_low, c7_critical, c7_high], key_le (sort_key p) (sort_key q) :=
  C7_select_work_minimal.1 [c7_low, c7_critical, c7_high] (by decide)

/-! ### C2 -/

theorem run_cycle_aux_succ_none {W : Type} (readyWork : W → List Project)
    (dispatchFn : W → Project → Bool × W) (fuel : Nat) (st : CycleState W)
    (hsel : select_work
      ((if st.dispatched > 0 then readyWork st.world else st.ready).filter
        (fun p => decide (p.path ∉ st.attempted))) = none) :
    run_cycle_aux readyWork dispatchFn (fuel + 1) st =
      { st with ready := if st.dispatched > 0 then readyWork st.world else st.ready } := by
  simp only [run_cycle_aux]
  rw [hsel]

theorem run_cycle_aux_succ_some {W : Type} (readyWork : W → List Project)
    (dispatchFn : W → Project → Bool × W) (fuel : Nat) (st : CycleState W)
    (p : Project)
    (hsel : select_work
      ((if st.dispatched > 0 then readyWork st.world else st.ready).filter
        (fun p => decide (p.path ∉ st.attempted))) = some p) :
    run_cycle_aux readyWork dispatchFn (fuel + 1) st =
      run_cycle_aux readyWork dispatchFn fuel
        { world := (dispatchFn st.world p).2,
          ready := if st.dispatched > 0 then readyWork st.world else st.ready,
          attempted := p.path :: st.attempted,
          dispatched :=
            if (dispatchFn st.world p).1 then st.dispatched + 1 else st.dispatched,
          log := st.log ++ [p.path] } := by
  simp only [run_cycle_aux]
  rw [hsel]

theorem run_cycle_aux_invariant {W : Type} (readyWork : W → List Project)
    (dispatchFn : W → Project → Bool × W) :
    ∀ (fuel : Nat) (st : CycleState W), st.log.Nodup →
    (∀ x ∈ st.log, x ∈ st.attempted) →
    ((run_cycle_aux readyWork dispatchFn fuel st).log.Nodup ∧
     (run_cycle_aux readyWork dispatchFn fuel st).log.length ≤
       st.log.length + fuel ∧
     ((run_cycle_aux readyWork dispatchFn fuel st).log.length =
        st.log.length + fuel ∨
       select_work
         ((run_cycle_aux readyWork dispatchFn fuel st).ready.filter
           (fun p => decide
             (p.path ∉ (run_cycle_aux readyWork dispatchFn fuel st).attempted))) =
         none) ∧
     (∀ x ∈ (run_cycle_aux readyWork dispatchFn fuel st).log,
        x ∈ (run_cycle_aux readyWork dispatchFn fuel st).attempted)) := by
  intro fuel
  induction fuel with
  | zero =>
    intro st h1 h2
    refine ⟨h1, by simp [run_cycle_aux], Or.inl (by simp [run_cycle_aux]), ?_⟩
    simpa [run_cycle_aux] using h2
  | succ fuel ih =>
    intro st h1 h2
    cases hsel : select_work
        ((if st.dispatched > 0 then readyWork st.world else st.ready).filter
          (fun p => decide (p.path ∉ st.attempted))) with
    | none =>
      rw [run_cycle_aux_succ_none readyWork dispatchFn fuel st hsel]
      refine ⟨h1, by simp, Or.inr ?_, h2⟩
      simpa using hsel
    | some p =>
      have hp := (select_work_spec hsel).1
      rw [List.mem_filter] at hp
      have hpnotin : p.path ∉ st.attempted := by simpa using hp.2
      have hpnotlog : p.path ∉ st.log := fun hin => hpnotin (h2 _ hin)
      rw [run_cycle_aux_succ_some readyWork dispatchFn fuel st p hsel]
      have h1' : (st.log ++ [p.path]).Nodup := by
        simp [List.nodup_append, h1, hpnotlog]
      have h2' : ∀ x ∈ st.log ++ [p.path], x ∈ p.path :: st.attempted := by
        intro x hx
        rcases List.mem_append.mp hx with hx | hx
        · exact List.mem_cons_of_mem _ (h2 x hx)
        · simp at hx
          simp [hx]
      have := ih
        { world := (dispatchFn st.world p).2,
          ready := if st.dispatched > 0 then readyWork st.world else st.ready,
          attempted := p.path :: st.attempted,
          dispatched :=
            if (dispatchFn st.world p).1 then st.dispatched + 1 else st.dispatched,
          log := st.log ++ [p.path] } h1' h2'
      refine ⟨this.1, ?_, ?_, this.2.2.2⟩
      · have := this.2.1
        simp only [List.length_append, List.length_cons, List.length_nil] at this ⊢
        omega
      · rcases this.2.2.1 with hlen | hnone
        · left
          simp only [List.length_append, List.length_cons, List.length_nil] at hlen ⊢
          omega
        · exact Or.inr hnone

/-- C2: within one `run_cycle`, the sequence of project paths passed to
`dispatch` never repeats a path (even though the candidate list is
re-derived between dispatches), and at most `max_dispatches` dispatch
attempts happen; the cycle ends either after `max_dispatches` attempts or
with no not-yet-attempted candidate left to select. In the scenario of
three ready tasks with task 2 always failing and `max_dispatches = 3`,
each task is attempted exactly once, in age order. -/
theorem C2_run_cycle_at_most_once :
    (∀ (W : Type) (readyWork : W → List Project)
      (dispatchFn : W → Project → Bool × W) (max_dispatches : Nat) (w0 : W),
      (run_cycle readyWork dispatchFn max_dispatches w0).log.Nodup ∧
      (run_cycle readyWork dispatchFn max_dispatches w0).log.length ≤
        max_dispatches ∧
      ((run_cycle readyWork dispatchFn max_dispatches w0).log.length =
         max_dispatches ∨
       select_work
         ((run_cycle readyWork dispatchFn max_dispatches w0).ready.filter
           (fun p => decide (p.path ∉
             (run_cycle readyWork dispatchFn max_dispatches w0).attempted))) =
         none)) ∧
    (run_cycle c2_ready c2_dispatch 3 ([] : List String)).log =
      ["t1", "t2", "t3"] := by
  constructor
  · intro W readyWork dispatchFn max_dispatches w0
    have h := run_cycle_aux_invariant readyWork dispatchFn max_dispatches
      { world := w0, ready := readyWork w0, attempted := [], dispatched := 0,
        log := [] } (by simp) (by simp)
    exact ⟨h.1, by simpa using h.2.1, by simpa using h.2.2.1⟩
  · decide

/-! ### C4 -/

theorem check_rate_limit_mk (cfg : LoopConfig) (now : Nat) (status : LoopStatus)
    (iter cf a hs stt : Nat) (out : String) (el : List String)
    (hist : List (Nat × Bool)) :
    ∃ a2 hs2, a2 ≤ a ∧
      check_rate_limit cfg now ⟨status, iter, cf, a, hs, stt, out, el, hist⟩ =
        (decide (a2 < cfg.rate_limit_per_hour),
         ⟨status, iter, cf, a2, hs2, stt, out, el, hist⟩) := by
  unfold check_rate_limit
  by_cases hr : now - hs > 3600
  · exact ⟨0, now, Nat.zero_le _, by simp [hr]⟩
  · exact ⟨a, hs, le_refl _, by simp [hr]⟩

theorem C4_aux (cfg : LoopConfig) (executor : Nat → Bool × String)
    (stop_requested : Nat → Bool) (clock : Nat → Nat)
    (hfail : ∀ i, (executor i).1 = false)
    (hstop : ∀ i, stop_requested i = false)
    (hrate : cfg.circuit_breaker_threshold < cfg.rate_limit_per_hour)
    (hclock : ∀ i, 1 ≤ i → i ≤ cfg.circuit_breaker_threshold →
      clock i - clock 0 ≤ cfg.timeout_seconds) :
    ∀ (n k : Nat), k + n = cfg.circuit_breaker_threshold →
    ∀ (m : Nat), n + 1 ≤ m →
    ∀ (a hs : Nat) (out : String) (el : List String) (hist : List (Nat × Bool)),
    a ≤ k → hist.length = k →
    ((run_iters cfg executor stop_requested clock (List.range' (k + 1) m)
      ⟨.running, k, k, a, hs, clock 0, out, el, hist⟩).status = .circuit_break ∧
     (run_iters cfg executor stop_requested clock (List.range' (k + 1) m)
      ⟨.running, k, k, a, hs, clock 0, out, el, hist⟩).consecutive_failures =
        cfg.circuit_breaker_threshold ∧
     (run_iters cfg executor stop_requested clock (List.range' (k + 1) m)
      ⟨.running, k, k, a, hs, clock 0, out, el, hist⟩).current_iteration =
        cfg.circuit_breaker_threshold ∧
     (run_iters cfg executor stop_requested clock (List.range' (k + 1) m)
      ⟨.running, k, k, a, hs, clock 0, out, el, hist⟩).history.length =
        cfg.circuit_breaker_threshold) := by
  intro n
  induction n with
  | zero =>
    intro k hk m hm a hs out el hist ha hh
    obtain ⟨mm, rfl⟩ : ∃ mm, m = mm + 1 := ⟨m - 1, by omega⟩
    rw [show List.range' (k + 1) (mm + 1) = (k + 1) :: List.range' (k + 1 + 1) mm from
      rfl]
    simp only [run_iters, hstop]
    obtain ⟨a2, hs2, ha2, hcr⟩ := check_rate_limit_mk cfg (clock (k + 1)) .running
      k k a hs (clock 0) out el hist
    rw [hcr]
    have hp2 : decide (a2 < cfg.rate_limit_per_hour) = true := by
      simp only [decide_eq_true_eq]
      omega
    have hcb : check_circuit_breaker cfg
        ⟨.running, k, k, a2, hs2, clock 0, out, el, hist⟩ = false := by
      simp only [check_circuit_breaker, decide_eq_false_iff_not, not_lt]
      omega
    simp only [hp2, hcb, Bool.not_true, Bool.not_false, Bool.false_eq_true, if_false,
      if_true]
    refine ⟨?_, ?_, ?_, ?_⟩ <;>
      first
      | rfl
      | omega
      | simp [hh]
  | succ n ih =>
    intro k hk m hm a hs out el hist ha hh
    obtain ⟨mm, rfl⟩ : ∃ mm, m = mm + 1 := ⟨m - 1, by omega⟩
    rw [show List.range' (k + 1) (mm + 1) = (k + 1) :: List.range' (k + 1 + 1) mm from
      rfl]
    simp only [run_iters, hstop]
    obtain ⟨a2, hs2, ha2, hcr⟩ := check_rate_limit_mk cfg (clock (k + 1)) .running
      k k a hs (clock 0) out el hist
    rw [hcr]
    have hp2 : decide (a2 < cfg.rate_limit_per_hour) = true := by
      simp only [decide_eq_true_eq]
      omega
    have hcb : check_circuit_breaker cfg
        ⟨.running, k, k, a2, hs2, clock 0, out, el, hist⟩ = true := by
      simp only [check_circuit_breaker, decide_eq_true_eq]
      omega
    have htime : ¬(clock (k + 1) - clock 0 > cfg.timeout_seconds) := by
      have := hclock (k + 1) (by omega) (by omega)
      omega
    have hex := hfail (k + 1)
    simp only [hp2, hcb, Bool.not_true, Bool.not_false, Bool.false_eq_true, if_false,
      if_true]
    simp only [LoopState.start_time, if_neg htime, hex, Bool.false_eq_true, if_false]
    have hstep := ih (k + 1) (by omega) mm (by omega) (a2 + 1) hs2
      (executor (k + 1)).2 (el ++ [(executor (k + 1)).2]) (hist ++ [(k + 1, false)])
      (by omega) (by simp [hh])
    exact hstep

/-- C4: an execution loop whose injected executor fails on every iteration
(with no cancellation, a rate limit above the circuit threshold, an
iteration budget beyond the threshold and a clock inside the timeout)
terminates with status `circuit_break` after exactly
`circuit_breaker_threshold` consecutive failures: the final
`consecutive_failures` and `current_iteration` both equal the threshold and
exactly `circuit_breaker_threshold` iterations were executed (the breaker
is checked before an iteration starts, so no further iteration runs). -/
theorem C4_circuit_break_exact (cfg : LoopConfig) (executor : Nat → Bool × String)
    (stop_requested : Nat → Bool) (clock : Nat → Nat)
    (hfail : ∀ i, (executor i).1 = false)
    (hstop : ∀ i, stop_requested i = false)
    (hmax : cfg.circuit_breaker_threshold + 1 ≤ cfg.max_iterations)
    (hrate : cfg.circuit_breaker_threshold < cfg.rate_limit_per_hour)
    (hclock : ∀ i, 1 ≤ i → i ≤ cfg.circuit_breaker_threshold →
      clock i - clock 0 ≤ cfg.timeout_seconds) :
    (YoloLoop.run cfg executor stop_requested clock).status = .circuit_break ∧
    (YoloLoop.run cfg executor stop_requested clock).consecutive_failures =
      cfg.circuit_breaker_threshold ∧
    (YoloLoop.run cfg executor stop_requested clock).current_iteration =
      cfg.circuit_breaker_threshold ∧
    (YoloLoop.run cfg executor stop_requested clock).history.length =
      cfg.circuit_breaker_threshold := by
  have h := C4_aux cfg executor stop_requested clock hfail hstop hrate hclock
    cfg.circuit_breaker_threshold 0 (by omega) cfg.max_iterations (by omega)
    0 (clock 0) "" [] [] (le_refl 0) rfl
  simpa [YoloLoop.run] using h

/-- C4 witness: the theorem applied to a concrete always-failing executor
with threshold 3. -/
theorem C4_circuit_break_exact_witness :
    (YoloLoop.run c4_cfg (fun _ => (false, "err")) (fun _ => false)
      (fun _ => 0)).status = .circuit_break ∧
    (YoloLoop.run c4_cfg (fun _ => (false, "err")) (fun _ => false)
      (fun _ => 0)).consecutive_failures = c4_cfg.circuit_breaker_threshold ∧
    (YoloLoop.run c4_cfg (fun _ => (false, "err")) (fun _ => false)
      (fun _ => 0)).current_iteration = c4_cfg.circuit_breaker_threshold ∧
    (YoloLoop.run c4_cfg (fun _ => (false, "err")) (fun _ => false)
      (fun _ => 0)).history.length = c4_cfg.circuit_breaker_threshold :=
  C4_circuit_break_exact c4_cfg (fun _ => (false, "err")) (fun _ => false)
    (fun _ => 0) (fun _ => rfl) (fun _ => rfl) (by decide) (by decide)
    (fun i h1 h2 => by simp)

/-! ### C3 -/

theorem lookup_statuses_foldl_no_id (b : String) :
    ∀ (ps : List Project) (m : List (String × String)),
    (∀ q ∈ ps, q.project_id ≠ b) →
    mapLookup b (ps.foldl
      (fun m p => mapInsert p.project_id (p.status.getD "unknown") m) m) =
      mapLookup b m := by
  intro ps
  induction ps with
  | nil => intro m _; rfl
  | cons p rest ih =>
    intro m hq
    rw [List.foldl_cons]
    rw [ih _ (fun q hq2 => hq q (List.mem_cons_of_mem _ hq2))]
    exact mapLookup_insert_ne _ _ (hq p (List.mem_cons_self _ _))

theorem lookup_statuses (b : String) :
    ∀ (ps : List Project), (ps.map Project.project_id).Nodup →
    ∀ (m : List (String × String)),
    mapLookup b (ps.foldl
      (fun m p => mapInsert p.project_id (p.status.getD "unknown") m) m) =
      match ps.find? (fun q => decide (q.project_id = b)) with
      | some q => some (q.status.getD "unknown")
      | none => mapLookup b m := by
  intro ps
  induction ps with
  | nil => intro _ m; rfl
  | cons p rest ih =>
    intro hnodup m
    have hnd : p.project_id ∉ rest.map Project.project_id ∧
        (rest.map Project.project_id).Nodup := by
      simpa using hnodup
    rw [List.foldl_cons]
    by_cases hb : p.project_id = b
    · have hnone : ∀ q ∈ rest, q.project_id ≠ b := by
        intro q hq he
        exact hnd.1 (by
          rw [hb, ← he]
          exact List.mem_map_of_mem Project.project_id hq)
      rw [lookup_statuses_foldl_no_id b rest _ hnone]
      rw [show rest.find? (fun q => decide (q.project_id = b)) = none from
        List.find?_eq_none.mpr (by
          intro q hq
          simpa using hnone q hq)] at *
      simp [List.find?, hb, mapLookup_insert_self]
    · rw [ih hnd.2]
      have : (List.find? (fun q => decide (q.project_id = b)) (p :: rest)) =
          List.find? (fun q => decide (q.project_id = b)) rest := by
        simp [List.find?, hb]
      rw [this]
      cases hfind : List.find? (fun q => decide (q.project_id = b)) rest with
      | some q => rfl
      | none => exact mapLookup_insert_ne _ _ hb

theorem getD_unknown_completed (s : Option String) :
    s.getD "unknown" = "completed" ↔ s = some "completed" := by
  cases s with
  | none => simp
  | some v => simp

theorem has_unresolved_blockers_false_iff (p : Project) (ps : List Project)
    (hnodup : (ps.map Project.project_id).Nodup) :
    has_unresolved_blockers p ps = false ↔
      ∀ b ∈ p.blocked_by, ∃ q ∈ ps, q.project_id = b ∧ q.status = some "completed" := by
  unfold has_unresolved_blockers
  by_cases hempty : p.blocked_by.isEmpty
  · rw [if_pos hempty]
    rw [List.isEmpty_iff] at hempty
    simp [hempty]
  · rw [if_neg hempty]
    rw [List.any_eq_false]
    constructor
    · intro h b hb
      have hpred := h b hb
      unfold project_statuses at hpred
      rw [lookup_statuses b ps hnodup []] at hpred
      cases hfind : ps.find? (fun q => decide (q.project_id = b)) with
      | none => rw [hfind] at hpred; simp [mapLookup] at hpred
      | some q =>
          rw [hfind] at hpred
          simp only [decide_eq_true_eq] at hpred
          have hcomp : q.status.getD "unknown" = "completed" := by
            by_contra hne
            exact hpred hne
          refine ⟨q, List.mem_of_find?_eq_some hfind, ?_,
            (getD_unknown_completed q.status).mp hcomp⟩
          have := List.find?_some hfind
          simpa using this
    · intro h b hb
      obtain ⟨q, hqmem, hqid, hqstat⟩ := h b hb
      unfold project_statuses
      rw [lookup_statuses b ps hnodup []]
      cases hfind : ps.find? (fun q => decide (q.project_id = b)) with
      | none =>
          exfalso
          rw [List.find?_eq_none] at hfind
          exact hfind q hqmem (by simpa using hqid)
      | some q2 =>
          have hq2id : q2.project_id = b := by
            simpa using List.find?_some hfind
          have hq2 : q2 = q := by
            exact List.inj_on_of_nodup_map hnodup
              (List.mem_of_find?_eq_some hfind) hqmem (by rw [hq2id, hqid])
          subst hq2
          simp [hqstat]

/-- C3: a task is in `ready_work` iff its status is "active", its blocked
flag is false, its owner is null, and every id in its `blocked_by` set has a
task record whose status is "completed" — so an unknown blocker id keeps a
task out of the ready set; consequently, while a blocker U is not completed,
no task listing U in `blocked_by` is ever ready (ids assumed distinct, as
they are keys of the task store). -/
theorem C3_ready_work_iff (ps : List Project)
    (hnodup : (ps.map Project.project_id).Nodup) :
    (∀ p, p ∈ ready_work ps ↔
      p ∈ ps ∧ p.status.getD "" = "active" ∧ p.blocked = false ∧ p.owner = none ∧
      ∀ b ∈ p.blocked_by, ∃ q ∈ ps, q.project_id = b ∧
        q.status = some "completed") ∧
    (∀ T U, T ∈ ps → U ∈ T.blocked_by →
      (∀ q ∈ ps, q.project_id = U → q.status ≠ some "completed") →
      T ∉ ready_work ps) := by
  have hiff : ∀ p, p ∈ ready_work ps ↔
      p ∈ ps ∧ p.status.getD "" = "active" ∧ p.blocked = false ∧ p.owner = none ∧
      ∀ b ∈ p.blocked_by, ∃ q ∈ ps, q.project_id = b ∧
        q.status = some "completed" := by
    intro p
    unfold ready_work
    rw [List.mem_filter]
    constructor
    · rintro ⟨hmem, hpred⟩
      simp only [Bool.and_eq_true, decide_eq_true_eq, Bool.not_eq_true',
        Option.isNone_iff_eq_none] at hpred
      exact ⟨hmem, hpred.1.1.1, hpred.1.1.2, hpred.1.2,
        (has_unresolved_blockers_false_iff p ps hnodup).mp hpred.2⟩
    · rintro ⟨hmem, hstat, hblock, howner, hdeps⟩
      refine ⟨hmem, ?_⟩
      simp only [Bool.and_eq_true, decide_eq_true_eq, Bool.not_eq_true',
        Option.isNone_iff_eq_none]
      exact ⟨⟨⟨hstat, hblock⟩, howner⟩,
        (has_unresolved_blockers_false_iff p ps hnodup).mpr hdeps⟩
  refine ⟨hiff, ?_⟩
  intro T U hT hU hnc hready
  obtain ⟨_, _, _, _, hdeps⟩ := (hiff T).mp hready
  obtain ⟨q, hqmem, hqid, hqstat⟩ := hdeps U hU
  exact hnc q hqmem hqid hqstat

/-- C3 witness: with U still active, T (blocked by U) is not ready, while U
itself is ready. -/
theorem C3_ready_work_iff_witness :
    c3_t ∉ ready_work [c3_t, c3_u] ∧ c3_u ∈ ready_work [c3_t, c3_u] := by
  have h := C3_ready_work_iff [c3_t, c3_u] (by decide)
  constructor
  · exact h.2 c3_t "U" (by decide) (by decide) (by decide)
  · exact (h.1 c3_u).mpr (by
      refine ⟨by decide, by decide, by decide, by decide, ?_⟩
      intro b hb
      simp [c3_u] at hb)

/-! ### C5 -/

/-- C5 counterexample: a dependency graph that does contain the cycle
A→B→C→A (plus a self-loop B→B) on which `detect_cycles`, traversing from C,
reports only the self-loop and no cycle containing all three ids — refuting
the claim for arbitrary graphs containing the cycle. -/
theorem C5_counterexample :
    "B" ∈ (mapLookup "A" (build_dependency_graph c5_bad).edges).getD [] ∧
    "C" ∈ (mapLookup "B" (build_dependency_graph c5_bad).edges).getD [] ∧
    "A" ∈ (mapLookup "C" (build_dependency_graph c5_bad).edges).getD [] ∧
    detect_cycles c5_bad ["C", "B", "A"] = [["B", "B"]] ∧
    ¬∃ c ∈ detect_cycles c5_bad ["C", "B", "A"], "A" ∈ c ∧ "B" ∈ c ∧ "C" ∈ c := by
  decide

/-- C5 (amended): for the dependency graph consisting of the cycle A→B→C→A
and no other edges — also when entered from an outside node X→A —
`detect_cycles` reports a cycle containing all three ids for every traversal
order of the node set; the reported cycle is the subsequence of the
traversal path from the first revisited on-stack node to the closing edge
(e.g. `[A, B, C, A]` when the traversal starts at A). -/
theorem C5_detect_cycles_amended :
    (∀ ord ∈ c5_orders3,
      ∃ c ∈ detect_cycles c5_cycle ord, "A" ∈ c ∧ "B" ∈ c ∧ "C" ∈ c) ∧
    (∀ ord ∈ c5_orders4,
      ∃ c ∈ detect_cycles c5_entry ord, "A" ∈ c ∧ "B" ∈ c ∧ "C" ∈ c) ∧
    detect_cycles c5_cycle ["A", "B", "C"] = [["A", "B", "C", "A"]] := by
  refine ⟨by decide, by decide, by decide⟩

/-- C5 witness: the amended theorem applied to the traversal order starting
at A on the pure cycle graph. -/
theorem C5_detect_cycles_amended_witness :
    ∃ c ∈ detect_cycles c5_cycle ["A", "B", "C"], "A" ∈ c ∧ "B" ∈ c ∧ "C" ∈ c :=
  C5_detect_cycles_amended.1 ["A", "B", "C"] (by decide)

/-! ### C9 -/

theorem mem_edgeAppend_self (m : List (String × List String)) (k v : String) :
    v ∈ (mapLookup k (edgeAppend m k v)).getD [] := by
  unfold edgeAppend
  rw [mapLookup_insert_self]
  simp

theorem mem_edgeAppend_mono {m : List (String × List String)} {k v : String}
    (k' v' : String) (h : v ∈ (mapLookup k m).getD []) :
    v ∈ (mapLookup k (edgeAppend m k' v')).getD [] := by
  unfold edgeAppend
  by_cases hk : k' = k
  · subst hk
    rw [mapLookup_insert_self]
    simp only [Option.getD_some]
    exact List.mem_append_left _ h
  · rw [mapLookup_insert_ne _ _ hk]
    exact h

theorem mem_edgeAppendNew_self (m : List (String × List String)) (k v : String) :
    v ∈ (mapLookup k (edgeAppendNew m k v)).getD [] := by
  unfold edgeAppendNew
  by_cases hmem : v ∈ (mapLookup k m).getD []
  · simp [hmem]
  · simpa [hmem] using mem_edgeAppend_self m k v

theorem mem_edgeAppendNew_mono {m : List (String × List String)} {k v : String}
    (k' v' : String) (h : v ∈ (mapLookup k m).getD []) :
    v ∈ (mapLookup k (edgeAppendNew m k' v')).getD [] := by
  unfold edgeAppendNew
  by_cases hmem : v' ∈ (mapLookup k' m).getD []
  · simpa [hmem] using h
  · simpa [hmem] using mem_edgeAppend_mono k' v' h

theorem mem_bb_fold_edges_mono (nk : List String) (pid : String)
    (l : List String) {k v : String} :
    ∀ (er : List (String × List String) × List (String × List String)),
    v ∈ (mapLookup k er.1).getD [] →
    v ∈ (mapLookup k (l.foldl
      (fun er blocker_id =>
        if blocker_id ∈ nk then
          (edgeAppend er.1 blocker_id pid, edgeAppend er.2 pid blocker_id)
        else er) er).1).getD [] := by
  induction l with
  | nil => intro er h; exact h
  | cons b rest ih =>
    intro er h
    rw [List.foldl_cons]
    by_cases hb : b ∈ nk
    · simp only [hb, if_true]
      exact ih _ (mem_edgeAppend_mono b pid h)
    · simp only [hb, if_false]
      exact ih _ h

theorem mem_bb_fold_rev_mono (nk : List String) (pid : String)
    (l : List String) {k v : String} :
    ∀ (er : List (String × List String) × List (String × List String)),
    v ∈ (mapLookup k er.2).getD [] →
    v ∈ (mapLookup k (l.foldl
      (fun er blocker_id =>
        if blocker_id ∈ nk then
          (edgeAppend er.1 blocker_id pid, edgeAppend er.2 pid blocker_id)
        else er) er).2).getD [] := by
  induction l with
  | nil => intro er h; exact h
  | cons b rest ih =>
    intro er h
    rw [List.foldl_cons]
    by_cases hb : b ∈ nk
    · simp only [hb, if_true]
      exact ih _ (mem_edgeAppend_mono pid b h)
    · simp only [hb, if_false]
      exact ih _ h

theorem mem_blocks_fold_edges_mono (nk : List String) (pid : String)
    (l : List String) {k v : String} :
    ∀ (er : List (String × List String) × List (String × List String)),
    v ∈ (mapLookup k er.1).getD [] →
    v ∈ (mapLookup k (l.foldl
      (fun er blocked_id =>
        if blocked_id ∈ nk then
          (edgeAppend er.1 pid blocked_id, edgeAppendNew er.2 blocked_id pid)
        else er) er).1).getD [] := by
  induction l with
  | nil => intro er h; exact h
  | cons c rest ih =>
    intro er h
    rw [List.foldl_cons]
    by_cases hc : c ∈ nk
    · simp only [hc, if_true]
      exact ih _ (mem_edgeAppend_mono pid c h)
    · simp only [hc, if_false]
      exact ih _ h

theorem mem_blocks_fold_rev_mono (nk : List String) (pid : String)
    (l : List String) {k v : String} :
    ∀ (er : List (String × List String) × List (String × List String)),
    v ∈ (mapLookup k er.2).getD [] →
    v ∈ (mapLookup k (l.foldl
      (fun er blocked_id =>
        if blocked_id ∈ nk then
          (edgeAppend er.1 pid blocked_id, edgeAppendNew er.2 blocked_id pid)
        else er) er).2).getD [] := by
  induction l with
  | nil => intro er h; exact h
  | cons c rest ih =>
    intro er h
    rw [List.foldl_cons]
    by_cases hc : c ∈ nk
    · simp only [hc, if_true]
      exact ih _ (mem_edgeAppendNew_mono c pid h)
    · simp only [hc, if_false]
      exact ih _ h

theorem mem_bb_fold_estab (nk : List String) (pid : String) (l : List String)
    (b : String) (hb : b ∈ l) (hnk : b ∈ nk) :
    ∀ er : List (String × List String) × List (String × List String),
    pid ∈ (mapLookup b (l.foldl
      (fun er blocker_id =>
        if blocker_id ∈ nk then
          (edgeAppend er.1 blocker_id pid, edgeAppend er.2 pid blocker_id)
        else er) er).1).getD [] ∧
    b ∈ (mapLookup pid (l.foldl
      (fun er blocker_id =>
        if blocker_id ∈ nk then
          (edgeAppend er.1 blocker_id pid, edgeAppend er.2 pid blocker_id)
        else er) er).2).getD [] := by
  induction l with
  | nil => cases hb
  | cons x rest ih =>
    intro er
    rw [List.foldl_cons]
    rcases List.mem_cons.mp hb with hbx | hbr
    · subst hbx
      simp only [hnk, if_true]
      exact ⟨mem_bb_fold_edges_mono nk pid rest _ (mem_edgeAppend_self _ b pid),
             mem_bb_fold_rev_mono nk pid rest _ (mem_edgeAppend_self er.2 pid b)⟩
    · exact ih hbr _

theorem mem_blocks_fold_estab (nk : List String) (pid : String) (l : List String)
    (c : String) (hc : c ∈ l) (hnk : c ∈ nk) :
    ∀ er : List (String × List String) × List (String × List String),
    c ∈ (mapLookup pid (l.foldl
      (fun er blocked_id =>
        if blocked_id ∈ nk then
          (edgeAppend er.1 pid blocked_id, edgeAppendNew er.2 blocked_id pid)
        else er) er).1).getD [] ∧
    pid ∈ (mapLookup c (l.foldl
      (fun er blocked_id =>
        if blocked_id ∈ nk then
          (edgeAppend er.1 pid blocked_id, edgeAppendNew er.2 blocked_id pid)
        else er) er).2).getD [] := by
  induction l with
  | nil => cases hc
  | cons x rest ih =>
    intro er
    rw [List.foldl_cons]
    rcases List.mem_cons.mp hc with hcx | hcr
    · subst hcx
      simp only [hnk, if_true]
      exact ⟨mem_blocks_fold_edges_mono nk pid rest _ (mem_edgeAppend_self _ pid c),
             mem_blocks_fold_rev_mono nk pid rest _ (mem_edgeAppendNew_self _ c pid)⟩
    · exact ih hcr _

theorem mem_addProjectEdges_edges_mono (nk : List String) (p : Project)
    {k v : String}
    (er : List (String × List String) × List (String × List String))
    (h : v ∈ (mapLookup k er.1).getD []) :
    v ∈ (mapLookup k (addProjectEdges nk p er).1).getD [] := by
  unfold addProjectEdges
  exact mem_blocks_fold_edges_mono nk p.project_id p.blocks _
    (mem_bb_fold_edges_mono nk p.project_id p.blocked_by er h)

theorem mem_addProjectEdges_rev_mono (nk : List String) (p : Project)
    {k v : String}
    (er : List (String × List String) × List (String × List String))
    (h : v ∈ (mapLookup k er.2).getD []) :
    v ∈ (mapLookup k (addProjectEdges nk p er).2).getD [] := by
  unfold addProjectEdges
  exact mem_blocks_fold_rev_mono nk p.project_id p.blocks _
    (mem_bb_fold_rev_mono nk p.project_id p.blocked_by er h)

theorem mem_addProjectEdges_bb (nk : List String) (p : Project) (b : String)
    (hb : b ∈ p.blocked_by) (hnk : b ∈ nk)
    (er : List (String × List String) × List (String × List String)) :
    p.project_id ∈ (mapLookup b (addProjectEdges nk p er).1).getD [] ∧
    b ∈ (mapLookup p.project_id (addProjectEdges nk p er).2).getD [] := by
  unfold addProjectEdges
  have h := mem_bb_fold_estab nk p.project_id p.blocked_by b hb hnk er
  exact ⟨mem_blocks_fold_edges_mono nk p.project_id p.blocks _ h.1,
         mem_blocks_fold_rev_mono nk p.project_id p.blocks _ h.2⟩

theorem mem_addProjectEdges_blocks (nk : List String) (p : Project) (c : String)
    (hc : c ∈ p.blocks) (hnk : c ∈ nk)
    (er : List (String × List String) × List (String × List String)) :
    c ∈ (mapLookup p.project_id (addProjectEdges nk p er).1).getD [] ∧
    p.project_id ∈ (mapLookup c (addProjectEdges nk p er).2).getD [] := by
  unfold addProjectEdges
  exact mem_blocks_fold_estab nk p.project_id p.blocks c hc hnk _

theorem outer_fold_edges_mono (nk : List String) :
    ∀ (ps : List Project)
    (er : List (String × List String) × List (String × List String))
    {k v : String}, v ∈ (mapLookup k er.1).getD [] →
    v ∈ (mapLookup k
      ((ps.foldl (fun er p => addProjectEdges nk p er) er)).1).getD [] := by
  intro ps
  induction ps with
  | nil => intro er k v h; exact h
  | cons q rest ih =>
    intro er k v h
    rw [List.foldl_cons]
    exact ih _ (mem_addProjectEdges_edges_mono nk q er h)

theorem outer_fold_rev_mono (nk : List String) :
    ∀ (ps : List Project)
    (er : List (String × List String) × List (String × List String))
    {k v : String}, v ∈ (mapLookup k er.2).getD [] →
    v ∈ (mapLookup k
      ((ps.foldl (fun er p => addProjectEdges nk p er) er)).2).getD [] := by
  intro ps
  induction ps with
  | nil => intro er k v h; exact h
  | cons q rest ih =>
    intro er k v h
    rw [List.foldl_cons]
    exact ih _ (mem_addProjectEdges_rev_mono nk q er h)

theorem outer_fold_bb (nk : List String) (p : Project) (b : String)
    (hb : b ∈ p.blocked_by) (hnk : b ∈ nk) :
    ∀ (ps : List Project)
    (er : List (String × List String) × List (String × List String)), p ∈ ps →
    p.project_id ∈ (mapLookup b
      ((ps.foldl (fun er p => addProjectEdges nk p er) er)).1).getD [] ∧
    b ∈ (mapLookup p.project_id
      ((ps.foldl (fun er p => addProjectEdges nk p er) er)).2).getD [] := by
  intro ps
  induction ps with
  | nil => intro er hp; cases hp
  | cons q rest ih =>
    intro er hp
    rw [List.foldl_cons]
    rcases List.mem_cons.mp hp with hpq | hpr
    · subst hpq
      have h := mem_addProjectEdges_bb nk p b hb hnk er
      exact ⟨outer_fold_edges_mono nk rest _ h.1, outer_fold_rev_mono nk rest _ h.2⟩
    · exact ih _ hpr

theorem outer_fold_blocks (nk : List String) (p : Project) (c : String)
    (hc : c ∈ p.blocks) (hnk : c ∈ nk) :
    ∀ (ps : List Project)
    (er : List (String × List String) × List (String × List String)), p ∈ ps →
    c ∈ (mapLookup p.project_id
      ((ps.foldl (fun er p => addProjectEdges nk p er) er)).1).getD [] ∧
    p.project_id ∈ (mapLookup c
      ((ps.foldl (fun er p => addProjectEdges nk p er) er)).2).getD [] := by
  intro ps
  induction ps with
  | nil => intro er hp; cases hp
  | cons q rest ih =>
    intro er hp
    rw [List.foldl_cons]
    rcases List.mem_cons.mp hp with hpq | hpr
    · subst hpq
      have h := mem_addProjectEdges_blocks nk p c hc hnk er
      exact ⟨outer_fold_edges_mono nk rest _ h.1, outer_fold_rev_mono nk rest _ h.2⟩
    · exact ih _ hpr

theorem mem_mapKeys_insert {β : Type} (x k : String) (v : β)
    (m : List (String × β)) :
    x ∈ mapKeys (mapInsert k v m) ↔ x = k ∨ x ∈ mapKeys m := by
  simp only [mapInsert, mapKeys, mapErase, List.map_cons, List.mem_cons,
    List.mem_map, List.mem_filter]
  constructor
  · rintro (h | ⟨kv, ⟨hkv, _⟩, hx⟩)
    · exact Or.inl h
    · exact Or.inr ⟨kv, hkv, hx⟩
  · rintro (h | ⟨kv, hkv, hx⟩)
    · exact Or.inl h
    · by_cases hk : x = k
      · exact Or.inl hk
      · refine Or.inr ⟨kv, ⟨hkv, ?_⟩, hx⟩
        simpa [hx] using hk

theorem keys_init_fold (x : String) :
    ∀ (ps : List Project)
    (acc : List (String × GraphNode) ×
      List (String × List String) × List (String × List String)),
    (x ∈ mapKeys ((ps.foldl
      (fun (acc : List (String × GraphNode) ×
            List (String × List String) × List (String × List String)) p =>
        (mapInsert p.project_id (projectNode p) acc.1,
         mapInsert p.project_id [] acc.2.1,
         mapInsert p.project_id [] acc.2.2)) acc).1) ↔
      x ∈ ps.map Project.project_id ∨ x ∈ mapKeys acc.1) := by
  intro ps
  induction ps with
  | nil => simp
  | cons p rest ih =>
    intro acc
    rw [List.foldl_cons]
    rw [ih]
    simp only [List.map_cons, List.mem_cons]
    rw [mem_mapKeys_insert]
    tauto

/-- C9 counterexample: when A has no task record, `build_dependency_graph`
skips the edge entirely — A is listed in B's `blocked_by`, yet A does not
appear in `reverse_edges[B]` and B does not appear in `edges[A]`, refuting
the claim's "including when one of the referenced ids has no task record". -/
theorem C9_counterexample :
    "A" ∈ c9_b.blocked_by ∧
    "A" ∉ (mapLookup "B" (build_dependency_graph [c9_b]).reverse_edges).getD [] ∧
    "B" ∉ (mapLookup "A" (build_dependency_graph [c9_b]).edges).getD [] := by
  decide

/-- C9 (amended): the graph built by `build_dependency_graph` is symmetric
for ids that both have task records: if A is listed in B's `blocked_by` and A
has a record, then A appears in `reverse_edges[B]` and B appears in
`edges[A]`; and if B is listed in A's `blocks` and B has a record, then B
appears in `edges[A]` and A appears in `reverse_edges[B]`. A referenced id
with no task record produces no edge at all. -/
theorem C9_graph_symmetry (ps : List Project) :
    ∀ p ∈ ps,
      (∀ a ∈ p.blocked_by, a ∈ ps.map Project.project_id →
        a ∈ (mapLookup p.project_id
          (build_dependency_graph ps).reverse_edges).getD [] ∧
        p.project_id ∈ (mapLookup a (build_dependency_graph ps).edges).getD []) ∧
      (∀ c ∈ p.blocks, c ∈ ps.map Project.project_id →
        c ∈ (mapLookup p.project_id (build_dependency_graph ps).edges).getD [] ∧
        p.project_id ∈ (mapLookup c
          (build_dependency_graph ps).reverse_edges).getD []) := by
  intro p hp
  constructor
  · intro a ha hamem
    have hank : a ∈ mapKeys ((ps.foldl
        (fun (acc : List (String × GraphNode) ×
              List (String × List String) × List (String × List String)) p =>
          (mapInsert p.project_id (projectNode p) acc.1,
           mapInsert p.project_id [] acc.2.1,
           mapInsert p.project_id [] acc.2.2)) ([], [], [])).1) :=
      (keys_init_fold a ps _).mpr (Or.inl hamem)
    have h := outer_fold_bb _ p a ha hank ps
      ((ps.foldl
        (fun (acc : List (String × GraphNode) ×
              List (String × List String) × List (String × List String)) p =>
          (mapInsert p.project_id (projectNode p) acc.1,
           mapInsert p.project_id [] acc.2.1,
           mapInsert p.project_id [] acc.2.2)) ([], [], [])).2.1,
       (ps.foldl
        (fun (acc : List (String × GraphNode) ×
              List (String × List String) × List (String × List String)) p =>
          (mapInsert p.project_id (projectNode p) acc.1,
           mapInsert p.project_id [] acc.2.1,
           mapInsert p.project_id [] acc.2.2)) ([], [], [])).2.2) hp
    exact ⟨by simpa [build_dependency_graph] using h.2,
           by simpa [build_dependency_graph] using h.1⟩
  · intro c hc hcmem
    have hcnk : c ∈ mapKeys ((ps.foldl
        (fun (acc : List (String × GraphNode) ×
              List (String × List String) × List (String × List String)) p =>
          (mapInsert p.project_id (projectNode p) acc.1,
           mapInsert p.project_id [] acc.2.1,
           mapInsert p.project_id [] acc.2.2)) ([], [], [])).1) :=
      (keys_init_fold c ps _).mpr (Or.inl hcmem)
    have h := outer_fold_blocks _ p c hc hcnk ps
      ((ps.foldl
        (fun (acc : List (String × GraphNode) ×
              List (String × List String) × List (String × List String)) p =>
          (mapInsert p.project_id (projectNode p) acc.1,
           mapInsert p.project_id [] acc.2.1,
           mapInsert p.project_id [] acc.2.2)) ([], [], [])).2.1,
       (ps.foldl
        (fun (acc : List (String × GraphNode) ×
              List (String × List String) × List (String × List String)) p =>
          (mapInsert p.project_id (projectNode p) acc.1,
           mapInsert p.project_id [] acc.2.1,
           mapInsert p.project_id [] acc.2.2)) ([], [], [])).2.2) hp
    exact ⟨by simpa [build_dependency_graph] using h.1,
           by simpa [build_dependency_graph] using h.2⟩

/-- C9 witness: the amended symmetry applied to the two-record list where B
is blocked by A and both ids have records. -/
theorem C9_graph_symmetry_witness :
    "A" ∈ (mapLookup "B"
      (build_dependency_graph [c9_a, c9_b]).reverse_edges).getD [] ∧
    "B" ∈ (mapLookup "A" (build_dependency_graph [c9_a, c9_b]).edges).getD [] := by
  have h := (C9_graph_symmetry [c9_a, c9_b] c9_b (by decide)).1 "A" (by decide)
    (by decide)
  exact h
